import Mathlib

/-!
# loopback-modeltester: the sequential test runner of `src/index.js`

A shallow embedding of `loopbackModelTester` (src/index.js).  JavaScript
strings are lists of characters (every character is taken to be one UTF-16
code unit), JavaScript objects are association lists given in `Object.keys`
order with distinct keys, and numbers are integers.
-/

namespace LoopbackModelTester

/-- A JavaScript string, as the list of its characters. -/
abbrev Str := List Char

/-- The values a JSON response body, a context entry or a route payload can be. -/
inductive JsVal where
  | undefined
  | null
  | bool (b : Bool)
  | num (n : Int)
  | str (s : Str)
  | arr (items : List JsVal)
  | obj (props : List (Str × JsVal))
  deriving Inhabited

mutual
/-- Decidable equality of values. -/
def JsVal.decEq : (a b : JsVal) → Decidable (a = b)
  | .undefined, b => by
    cases b
    case undefined => exact isTrue rfl
    all_goals exact isFalse (by intro h; cases h)
  | .null, b => by
    cases b
    case null => exact isTrue rfl
    all_goals exact isFalse (by intro h; cases h)
  | .bool x, b => by
    cases b
    case bool y => exact decidable_of_iff (x = y) (by constructor <;> intro h <;> [rw [h]; (cases h; rfl)])
    all_goals exact isFalse (by intro h; cases h)
  | .num x, b => by
    cases b
    case num y => exact decidable_of_iff (x = y) (by constructor <;> intro h <;> [rw [h]; (cases h; rfl)])
    all_goals exact isFalse (by intro h; cases h)
  | .str x, b => by
    cases b
    case str y => exact decidable_of_iff (x = y) (by constructor <;> intro h <;> [rw [h]; (cases h; rfl)])
    all_goals exact isFalse (by intro h; cases h)
  | .arr x, .arr y =>
    match JsVal.decEqItems x y with
    | isTrue h => isTrue (by rw [h])
    | isFalse h => isFalse (by intro h2; cases h2; exact h rfl)
  | .arr _, .undefined => isFalse (by intro h; cases h)
  | .arr _, .null => isFalse (by intro h; cases h)
  | .arr _, .bool _ => isFalse (by intro h; cases h)
  | .arr _, .num _ => isFalse (by intro h; cases h)
  | .arr _, .str _ => isFalse (by intro h; cases h)
  | .arr _, .obj _ => isFalse (by intro h; cases h)
  | .obj x, .obj y =>
    match JsVal.decEqProps x y with
    | isTrue h => isTrue (by rw [h])
    | isFalse h => isFalse (by intro h2; cases h2; exact h rfl)
  | .obj _, .undefined => isFalse (by intro h; cases h)
  | .obj _, .null => isFalse (by intro h; cases h)
  | .obj _, .bool _ => isFalse (by intro h; cases h)
  | .obj _, .num _ => isFalse (by intro h; cases h)
  | .obj _, .str _ => isFalse (by intro h; cases h)
  | .obj _, .arr _ => isFalse (by intro h; cases h)
/-- Decidable equality of lists of values. -/
def JsVal.decEqItems : (a b : List JsVal) → Decidable (a = b)
  | [], [] => isTrue rfl
  | [], _ :: _ => isFalse (by intro h; cases h)
  | _ :: _, [] => isFalse (by intro h; cases h)
  | x :: xs, y :: ys =>
    match JsVal.decEq x y, JsVal.decEqItems xs ys with
    | isTrue h1, isTrue h2 => isTrue (by rw [h1, h2])
    | isFalse h1, _ => isFalse (by intro h; cases h; exact h1 rfl)
    | _, isFalse h2 => isFalse (by intro h; cases h; exact h2 rfl)
/-- Decidable equality of lists of properties. -/
def JsVal.decEqProps : (a b : List (Str × JsVal)) → Decidable (a = b)
  | [], [] => isTrue rfl
  | [], _ :: _ => isFalse (by intro h; cases h)
  | _ :: _, [] => isFalse (by intro h; cases h)
  | (k, x) :: xs, (l, y) :: ys =>
    if hk : k = l then
      match JsVal.decEq x y, JsVal.decEqProps xs ys with
      | isTrue h1, isTrue h2 => isTrue (by rw [hk, h1, h2])
      | isFalse h1, _ => isFalse (by intro h; cases h; exact h1 rfl)
      | _, isFalse h2 => isFalse (by intro h; cases h; exact h2 rfl)
    else isFalse (by intro h; cases h; exact hk rfl)
end

instance : DecidableEq JsVal := JsVal.decEq

/-- Own-property lookup in an association list of properties. -/
def lookup {α : Type} (k : Str) : List (Str × α) → Option α
  | [] => none
  | (k', v) :: rest => if k' = k then some v else lookup k rest

/-- Test `Object.prototype.hasOwnProperty.call(o, k)` on a property list. -/
def hasKey {α : Type} (k : Str) (props : List (Str × α)) : Bool :=
  (lookup k props).isSome

/-- Assignment `o[k] = v` of a data property: overwrite in place, or append. -/
def assign {α : Type} (k : Str) (v : α) : List (Str × α) → List (Str × α)
  | [] => [(k, v)]
  | (k', v') :: rest => if k' = k then (k', v) :: rest else (k', v') :: assign k v rest

/-- Decimal digits of a natural number. -/
def natToStr (n : Nat) : Str := (Nat.repr n).toList

/-- The text of `Number.prototype.toString` on an integer. -/
def intToStr (n : Int) : Str :=
  match n with
  | Int.ofNat m => natToStr m
  | Int.negSucc m => '-' :: natToStr (m + 1)

/-- Join strings with a separator, as `Array.prototype.join`. -/
def joinWith (sep : Str) : List Str → Str
  | [] => []
  | [s] => s
  | s :: rest => s ++ sep ++ joinWith sep rest

mutual
/-- The abstract operation `ToString` of JavaScript on a JSON value; `none`
stands for the `TypeError` raised when an object has an own (hence
non-callable) `toString` property and so no primitive value. -/
def jsToString : JsVal → Option Str
  | .undefined => some "undefined".toList
  | .null => some "null".toList
  | .bool true => some "true".toList
  | .bool false => some "false".toList
  | .num n => some (intToStr n)
  | .str s => some s
  | .arr items => (jsJoinItems items).map (joinWith ",".toList)
  | .obj props => if hasKey "toString".toList props then none else some "[object Object]".toList
/-- The element texts `Array.prototype.join` concatenates: `null` and
`undefined` elements give the empty string. -/
def jsJoinItems : List JsVal → Option (List Str)
  | [] => some []
  | .undefined :: rest => (jsJoinItems rest).map (fun l => [] :: l)
  | .null :: rest => (jsJoinItems rest).map (fun l => [] :: l)
  | v :: rest =>
    match jsToString v, jsJoinItems rest with
    | some s, some l => some (s :: l)
    | _, _ => none
end

/-- The JavaScript errors the runner can raise or receive. -/
inductive ErrKind where
  | typeError
  | error
  | assertionError
  | transportError
  | ioError
  deriving DecidableEq, Inhabited

/-- An error value: its kind, its `message` and its optional `statusCode`. -/
structure JsErr where
  kind : ErrKind
  message : Str
  statusCode : Option Int := none
  deriving DecidableEq, Inhabited

deriving instance DecidableEq for Except

/-- The prototype of the context object.  It starts as `Object.prototype`
and changes only through an assignment `context["__proto__"] = v`. -/
inductive Proto where
  | objectPrototype
  | null
  | value (v : JsVal)
  deriving DecidableEq, Inhabited

/-- The `context` object of line 32: its own properties and its prototype. -/
structure Context where
  own : List (Str × JsVal)
  proto : Proto
  deriving DecidableEq, Inhabited

/-- The empty object literal of `let context` (line 32). -/
def Context.empty : Context := ⟨[], .objectPrototype⟩

/-- Whether a value used as prototype has the own data property `k`
(arrays own only indices and `length`, which no caller asks for). -/
def protoHasOwn (k : Str) : Proto → Bool
  | .value (.obj props) => hasKey k props
  | _ => false

/-- Whether `context.hasOwnProperty` evaluates to the built-in method: no own
property and no prototype property shadows it (a JSON value is never
callable), and the prototype chain still reaches `Object.prototype`. -/
def Context.hasOwnPropertyCallable (c : Context) : Bool :=
  !hasKey "hasOwnProperty".toList c.own &&
    match c.proto with
    | .objectPrototype => true
    | .null => false
    | .value v => !protoHasOwn "hasOwnProperty".toList (.value v)

/-- Whether `context["__proto__"]` still resolves to the accessor of
`Object.prototype`: no own data property of the context or of its prototype
has that name, and the prototype chain reaches `Object.prototype`. -/
def Context.protoAccessor (c : Context) : Bool :=
  !hasKey "__proto__".toList c.own &&
    match c.proto with
    | .objectPrototype => true
    | .null => false
    | .value v => !protoHasOwn "__proto__".toList (.value v)

/-- The assignment `context[k] = v` (line 173).  Every key creates or
overwrites an own data property, except `__proto__` while it resolves to the
accessor of `Object.prototype`: then an object or array becomes the
prototype, `null` removes the prototype, and a primitive is ignored. -/
def Context.set (c : Context) (k : Str) (v : JsVal) : Context :=
  if k = "__proto__".toList ∧ c.protoAccessor = true then
    match v with
    | .obj _ => { c with proto := .value v }
    | .arr _ => { c with proto := .value v }
    | .null => { c with proto := .null }
    | _ => c
  else { c with own := assign k v c.own }

/-- The error of calling a `context.hasOwnProperty` that is not a function. -/
def notAFunction : JsErr :=
  { kind := .typeError, message := "context.hasOwnProperty is not a function".toList }

/-- The error of `ToString` on an object without a primitive value. -/
def noPrimitive : JsErr :=
  { kind := .typeError, message := "Cannot convert object to primitive value".toList }

/-- The call `context.hasOwnProperty(k)` (lines 44 and 55). -/
def Context.hasOwnProperty (c : Context) (k : Str) : Except JsErr Bool :=
  if c.hasOwnPropertyCallable then .ok (hasKey k c.own) else .error notAFunction

/-! ## Regular-expression replacement -/

/-- One match of a global regular expression in a subject string: the text
before it, the matched text and the text after it. -/
structure Hit where
  before : Str
  matched : Str
  after : Str
  deriving DecidableEq, Inhabited

/-- A piece of the subject string: a character outside every match, or a match. -/
inductive Seg where
  | text (c : Char)
  | hit (h : Hit)
  deriving DecidableEq, Inhabited

/-- The matches of a global regular expression, leftmost first and not
overlapping, with the characters between them.  `matchAt rest` is the length
of the match that starts at the head of `rest`, if there is one; `skip`
counts the characters still covered by the last match; an empty match is
followed by one character of text, as `lastIndex` advances by one. -/
def scanFrom (matchAt : Str → Option Nat) : Str → Str → Nat → List Seg
  | pre, [], _ =>
    match matchAt [] with
    | some _ => [.hit ⟨pre.reverse, [], []⟩]
    | none => []
  | pre, c :: cs, skip + 1 => scanFrom matchAt (c :: pre) cs skip
  | pre, c :: cs, 0 =>
    match matchAt (c :: cs) with
    | some 0 => .hit ⟨pre.reverse, [], c :: cs⟩ :: .text c :: scanFrom matchAt (c :: pre) cs 0
    | some (n + 1) =>
      .hit ⟨pre.reverse, (c :: cs).take (n + 1), (c :: cs).drop (n + 1)⟩ ::
        scanFrom matchAt (c :: pre) cs n
    | none => .text c :: scanFrom matchAt (c :: pre) cs 0

/-- The segments of a whole subject string. -/
def scan (matchAt : Str → Option Nat) (s : Str) : List Seg := scanFrom matchAt [] s 0

/-- The character class `[a-zA-Z0-9._-]`. -/
def isIdChar (c : Char) : Bool :=
  c.isAlphanum || c == '.' || c == '_' || c == '-'

/-- The left brace, U+007B. -/
def lbrace : Char := Char.ofNat 123

/-- The right brace, U+007D. -/
def rbrace : Char := Char.ofNat 125

/-- The capture group of the template expression (lines 43 and 54), matched at
the head of the input: a dollar sign, a left brace, the longest non-empty run
of identifier characters, and a right brace. -/
def matchId : Str → Option Str
  | c :: d :: rest =>
    if c = '$' ∧ d = lbrace ∧ rest.takeWhile isIdChar ≠ [] ∧
        (rest.dropWhile isIdChar).head? = some rbrace then
      some (rest.takeWhile isIdChar)
    else none
  | _ => none

/-- The length of the match of the template expression at the head of the input. -/
def matchPlaceholder (s : Str) : Option Nat :=
  (matchId s).map (fun id => id.length + 3)

/-- The text of the placeholder for an identifier. -/
def placeholder (id : Str) : Str := '$' :: lbrace :: id ++ [rbrace]

/-- The capture group of a matched placeholder: the match without its first
two characters and its last one. -/
def idOfMatch (m : Str) : Str := (m.drop 2).dropLast

/-! ## Template resolution (lines 43-61) -/

/-- The replacer function of lines 43-48, with the `ToString` that `replace`
applies to its result: a bare `return` gives `undefined`, whose text is
`undefined`. -/
def urlReplacer (context : Context) (matchValue : Str) : Except JsErr Str :=
  match context.hasOwnProperty matchValue with
  | .error e => .error e
  | .ok false => .ok "undefined".toList
  | .ok true =>
    match jsToString ((lookup matchValue context.own).getD .undefined) with
    | some s => .ok s
    | none => .error noPrimitive

/-- The result of `replace` with a replacer function: text is kept, every
match is replaced by the replacer's result, and the first error is raised. -/
def replaceSegs (f : Str → Except JsErr Str) : List Seg → Except JsErr Str
  | [] => .ok []
  | .text c :: rest =>
    match replaceSegs f rest with
    | .ok r => .ok (c :: r)
    | .error e => .error e
  | .hit h :: rest =>
    match f (idOfMatch h.matched) with
    | .error e => .error e
    | .ok t =>
      match replaceSegs f rest with
      | .ok r => .ok (t ++ r)
      | .error e => .error e

/-- The new value of `route.url` (lines 43-48). -/
def resolveUrl (context : Context) (url : Str) : Except JsErr Str :=
  replaceSegs (urlReplacer context) (scan matchPlaceholder url)

/-- The matched texts of the template expression in a string, in order. -/
def placeholderMatches (s : Str) : List Str :=
  (scan matchPlaceholder s).filterMap fun seg =>
    match seg with
    | .hit h => some h.matched
    | .text _ => none

/-- The expression `new RegExp('\\' + match, 'g')` of line 58 for a matched
placeholder.  The escaped dollar sign is a literal.  When the identifier is
all digits, the braces are a quantifier: the expression is that many dollar
signs.  Otherwise the braces and the identifier are literals, except that a
dot of the identifier is the wildcard (`none`). -/
inductive Pattern where
  | dollars (n : Nat)
  | atoms (as : List (Option Char))
  deriving DecidableEq, Inhabited

/-- The value of a string of decimal digits. -/
def digitsToNat (ds : Str) : Nat :=
  ds.foldl (fun n c => 10 * n + (c.toNat - 48)) 0

/-- The pattern that line 58 builds from a match of the template expression. -/
def regExpOfMatch (m : Str) : Pattern :=
  if (idOfMatch m).all Char.isDigit then .dollars (digitsToNat (idOfMatch m))
  else .atoms (some '$' :: (m.drop 1).map fun c => if c = '.' then none else some c)

/-- The characters the wildcard does not match. -/
def isLineTerminator (c : Char) : Bool :=
  c == '\n' || c == '\r' || c.toNat == 0x2028 || c.toNat == 0x2029

/-- Whether a sequence of atoms matches at the head of the input. -/
def matchAtoms : List (Option Char) → Str → Bool
  | [], _ => true
  | _ :: _, [] => false
  | some a :: as, c :: cs => a == c && matchAtoms as cs
  | none :: as, c :: cs => !isLineTerminator c && matchAtoms as cs

/-- The length of the match of a pattern at the head of the input. -/
def Pattern.matchAt : Pattern → Str → Option Nat
  | .dollars n, s => if (List.replicate n '$').isPrefixOf s then some n else none
  | .atoms as, s => if matchAtoms as s then some as.length else none

/-- The abstract operation `GetSubstitution` for an expression without capture
groups: `$$` is a dollar sign, `$&` the match, a dollar sign with a backtick
the text before the match, a dollar sign with an apostrophe the text after
it, and everything else is literal. -/
def getSubstitution (h : Hit) : Str → Str
  | [] => []
  | [c] => [c]
  | c :: d :: rest =>
    if c = '$' ∧ d = '$' then '$' :: getSubstitution h rest
    else if c = '$' ∧ d = '&' then h.matched ++ getSubstitution h rest
    else if c = '$' ∧ d = Char.ofNat 96 then h.before ++ getSubstitution h rest
    else if c = '$' ∧ d = Char.ofNat 39 then h.after ++ getSubstitution h rest
    else c :: getSubstitution h (d :: rest)

/-- The result of `subject.replace(pattern, replacement)` with a string
replacement (line 58). -/
def replaceWith (p : Pattern) (subject replacement : Str) : Str :=
  ((scan p.matchAt subject).map fun seg =>
    match seg with
    | .text c => [c]
    | .hit h => getSubstitution h replacement).flatten

/-- The callbacks of lines 54-59 for the matches of the original header value,
in order, threading the current value of `route.headers[key]`.  An error
stops the loop and leaves the value as it then is. -/
def hydrate (context : Context) : List Str → Str → Str × Option JsErr
  | [], cur => (cur, none)
  | m :: ms, cur =>
    match context.hasOwnProperty (idOfMatch m) with
    | .error e => (cur, some e)
    | .ok false => hydrate context ms cur
    | .ok true =>
      match jsToString ((lookup (idOfMatch m) context.own).getD .undefined) with
      | none => (cur, some noPrimitive)
      | some r => hydrate context ms (replaceWith (regExpOfMatch m) cur r)

/-- The new value of one string header (lines 54-59). -/
def resolveHeaderValue (context : Context) (s : Str) : Str × Option JsErr :=
  hydrate context (placeholderMatches s) s

/-- The loop of lines 52-60 over the entries of a headers object. -/
def hydrateProps (context : Context) : List (Str × JsVal) → List (Str × JsVal) × Option JsErr
  | [] => ([], none)
  | (k, .str s) :: rest =>
    match resolveHeaderValue context s with
    | (s', some e) => ((k, .str s') :: rest, some e)
    | (s', none) => ((k, .str s') :: (hydrateProps context rest).1, (hydrateProps context rest).2)
  | (k, v) :: rest => ((k, v) :: (hydrateProps context rest).1, (hydrateProps context rest).2)

/-- The loop of lines 52-60 over the elements of a headers array. -/
def hydrateItems (context : Context) : List JsVal → List JsVal × Option JsErr
  | [] => ([], none)
  | .str s :: rest =>
    match resolveHeaderValue context s with
    | (s', some e) => (.str s' :: rest, some e)
    | (s', none) => (.str s' :: (hydrateItems context rest).1, (hydrateItems context rest).2)
  | v :: rest => (v :: (hydrateItems context rest).1, (hydrateItems context rest).2)

/-- The error of `Object.keys(null)`. -/
def nullToObject : JsErr :=
  { kind := .typeError, message := "Cannot convert undefined or null to object".toList }

/-- The value of `route.headers` after lines 51-61, and the error raised if any. -/
def resolveHeaders (context : Context) : JsVal → JsVal × Option JsErr
  | .obj props => (.obj (hydrateProps context props).1, (hydrateProps context props).2)
  | .arr items => (.arr (hydrateItems context items).1, (hydrateItems context items).2)
  | .null => (.null, some nullToObject)
  | v => (v, none)

/-! ## Routes, requests and responses -/

/-- The `file` entry of a route: the path and the form field name, when given. -/
structure FileSpec where
  path : Option Str
  form_name : Option Str
  deriving DecidableEq, Inhabited

/-- The `expect` entry of a route.  An absent field is `none`. -/
structure Expect where
  statusCode : Option Int
  bodyType : Option Str
  properties : Option (List (Str × Str))
  headers : Option (List (Str × Str))
  deriving DecidableEq, Inhabited

/-- The options of one entry of `variables`.  `name` is a string when given;
`register`, `required` and `value` are any value, `undefined` when absent. -/
structure VarOptions where
  name : Option Str
  register : JsVal
  required : JsVal
  value : JsVal
  deriving DecidableEq, Inhabited

/-- One element of `config`: a test step.  The field `vars` is the entry
`variables` of the route. -/
structure Route where
  title : Str
  skip : Bool
  debug : Bool
  method : Option Str
  model : Option Str
  url : Str
  headers : JsVal
  qs : JsVal
  body : JsVal
  formData : JsVal
  file : Option FileSpec
  expect : Option Expect
  vars : Option (List (Str × VarOptions))
  deriving DecidableEq, Inhabited

/-- The request descriptor `reqOption` of lines 63-72 (its two constant
fields `resolveWithFullResponse` and `json` are left out). -/
structure ReqOption where
  method : Str
  url : Str
  formData : JsVal
  body : JsVal
  headers : JsVal
  qs : JsVal
  deriving DecidableEq, Inhabited

/-- The value of a response header: a string, or a list of strings for a
header that is sent several times. -/
inductive HeaderVal where
  | single (s : Str)
  | multi (l : List Str)
  deriving DecidableEq, Inhabited

/-- The response `resp` of line 110; header names are in lower case. -/
structure Response where
  statusCode : Int
  body : JsVal
  headers : List (Str × HeaderVal)
  deriving DecidableEq, Inhabited

/-- The external collaborators of the runner: `has` and `get` of lodash, the
styling of chalk (the style, then the text), `basename`, `createReadStream`,
`mime.lookup`, and the HTTP client `request`, which answers a descriptor given
the descriptors sent before it, with a response or with an error. -/
structure Env where
  has : JsVal → Str → Bool
  get : JsVal → Str → JsVal
  chalk : String → Str → Str
  basename : Str → Str
  createReadStream : Str → Except JsErr JsVal
  mimeLookup : Str → JsVal
  request : List ReqOption → ReqOption → Except JsErr Response

/-- JavaScript truthiness of a value. -/
def truthy : JsVal → Bool
  | .undefined => false
  | .null => false
  | .bool b => b
  | .num n => n != 0
  | .str s => !s.isEmpty
  | _ => true

/-- The expression `v || void 0`. -/
def orUndefined (v : JsVal) : JsVal := if truthy v then v else .undefined

/-- The type name that `is(value)` of `@sindresorhus/is` gives for a value. -/
def is : JsVal → Str
  | .undefined => "undefined".toList
  | .null => "null".toList
  | .bool _ => "boolean".toList
  | .num _ => "number".toList
  | .str _ => "string".toList
  | .arr _ => "Array".toList
  | .obj _ => "Object".toList

/-- The method `toLowerCase` (on the ASCII letters). -/
def toLowerCase (s : Str) : Str := s.map Char.toLower

/-- The method `String.prototype.includes`: the needle occurs in the string. -/
def includes : Str → Str → Bool
  | [], needle => needle.isEmpty
  | c :: cs, needle => needle.isPrefixOf (c :: cs) || includes cs needle

/-- The strict equality `===` between a body value and a configured value:
primitives compare by value, and an object or array of a parsed body is never
the same object as a configured one. -/
def strictEq : JsVal → JsVal → Bool
  | .undefined, .undefined => true
  | .null, .null => true
  | .bool a, .bool b => a == b
  | .num a, .num b => a == b
  | .str a, .str b => a == b
  | _, _ => false

/-- The expression `app.get('url').replace(/\/$/, '')` of line 30. -/
def stripTrailingSlash (url : Str) : Str :=
  if url.getLast? = some '/' then url.dropLast else url

/-- The descriptor of lines 63-72, from the route after template resolution. -/
def buildReqOption (baseUrl basePath : Str) (route : Route) : ReqOption :=
  { method := match route.method with
      | some m => if m.isEmpty then "GET".toList else m
      | none => "GET".toList
    url := baseUrl ++ "/".toList ++ basePath ++
      (match route.model with
       | some model => "/".toList ++ model
       | none => []) ++ "/".toList ++ route.url
    formData := orUndefined route.formData
    body := orUndefined route.body
    headers := orUndefined route.headers
    qs := orUndefined route.qs }

/-- The form data of a file upload (lines 93-103): the field `name`, then the
field `formName` holding the stream with its file name and content type. -/
def uploadFormData (env : Env) (path formName : Str) (stream : JsVal) : JsVal :=
  .obj (assign formName
    (.obj [("value".toList, stream),
      ("options".toList, .obj [("filename".toList, .str (env.basename path)),
        ("contentType".toList, env.mimeLookup (env.basename path))])])
    [("name".toList, .str (env.basename path))])

/-- The descriptor after the upload block of lines 86-107, or the error that
the block hands to `done`. -/
def attachFile (env : Env) (file : Option FileSpec) (reqOption : ReqOption) :
    Except JsErr ReqOption :=
  match file with
  | none => .ok reqOption
  | some f =>
    match f.path with
    | none => .ok reqOption
    | some path =>
      match env.createReadStream path with
      | .error e => .error e
      | .ok stream =>
        .ok { reqOption with
          formData := uploadFormData env path (f.form_name.getD "file".toList) stream }

/-! ## Response validation (lines 119-163) -/

/-- The message of the assertion of line 120.  The first styled value is the
object `expect` itself, whose text is `[object Object]`. -/
def statusCodeMessage (env : Env) (statusCode : Int) : Str :=
  "Invalid response statusCode. Should be ".toList ++
    env.chalk "green.bold" "[object Object]".toList ++
    " but returned code ".toList ++ env.chalk "red.bold" (intToStr statusCode)

/-- The assertion of line 120; `expected` is `expect.statusCode` after the
default of lines 81-83. -/
def checkStatusCode (env : Env) (expected statusCode : Int) : Except JsErr Unit :=
  if statusCode = expected then .ok ()
  else .error { kind := .assertionError, message := statusCodeMessage env statusCode }

/-- The loop of lines 133-144 over the declared properties. -/
def checkProperties (env : Env) (body : JsVal) : List (Str × Str) → Except JsErr Unit
  | [] => .ok ()
  | (key, ty) :: rest =>
    if env.has body key = false then
      .error { kind := .error, message := "Missing body response key ".toList ++ key }
    else if toLowerCase ty = "any".toList then checkProperties env body rest
    else if toLowerCase (is (env.get body key)) ≠ toLowerCase ty then
      .error { kind := .typeError,
               message := "Property ".toList ++ env.chalk "blue.bold" key ++
                 " should be ".toList ++ env.chalk "green.bold" (toLowerCase ty) ++
                 " but the returned property was ".toList ++
                 env.chalk "yellow.bold" (toLowerCase (is (env.get body key))) }
    else checkProperties env body rest

/-- The block of lines 124-146: the body type, then the properties. -/
def checkBodyType (env : Env) (expect : Expect) (body : JsVal) : Except JsErr Unit :=
  match expect.bodyType with
  | none => .ok ()
  | some bodyType =>
    if toLowerCase (is body) ≠ toLowerCase bodyType then
      .error { kind := .assertionError,
               message := "Invalid type for the returned response body. Should be ".toList ++
                 env.chalk "green.bold" (toLowerCase bodyType) ++
                 " but detected as ".toList ++ env.chalk "red.bold" (toLowerCase (is body)) }
    else if toLowerCase (is body) = "object".toList then
      match expect.properties with
      | some properties => checkProperties env body properties
      | none => .ok ()
    else .ok ()

/-- The text of a response header value, as a template literal prints it. -/
def headerText : HeaderVal → Str
  | .single s => s
  | .multi l => joinWith ",".toList l

/-- The call `headers[headerKey].includes(expected)` of line 157, where
`expected` is `none` for `undefined`: a substring test on a string (of the
text `undefined` for `undefined`), a membership test on a list. -/
def headerIncludes : HeaderVal → Option Str → Bool
  | .single s, some e => includes s e
  | .single s, none => includes s "undefined".toList
  | .multi l, some e => l.contains e
  | .multi _, none => false

/-- The loop of lines 151-162 over the keys of `expect.headers`; `all` is the
whole of `expect.headers`, in which line 157 looks the lower-cased key up. -/
def checkHeaderKeys (env : Env) (all : List (Str × Str)) (headers : List (Str × HeaderVal)) :
    List Str → Except JsErr Unit
  | [] => .ok ()
  | key :: rest =>
    match lookup (toLowerCase key) headers with
    | none =>
      .error { kind := .error,
               message := "Key ".toList ++ env.chalk "green.bold" (toLowerCase key) ++
                 " is not present in the response headers!".toList }
    | some value =>
      if headerIncludes value (lookup (toLowerCase key) all) then
        checkHeaderKeys env all headers rest
      else
        .error { kind := .assertionError,
                 message := "Invalid headers value for the key ".toList ++
                   env.chalk "bold.blue" (toLowerCase key) ++
                   ". Should be (or contains) ".toList ++
                   env.chalk "bold.green" ((lookup (toLowerCase key) all).getD "undefined".toList) ++
                   " but was ".toList ++ env.chalk "bold.red" (headerText value) ++ [rbrace] }

/-- The block of lines 149-163. -/
def checkHeaders (env : Env) (expect : Expect) (headers : List (Str × HeaderVal)) :
    Except JsErr Unit :=
  match expect.headers with
  | none => .ok ()
  | some all => checkHeaderKeys env all headers (all.map Prod.fst)

/-- The checks of lines 119-163 in order; the first failure is the error. -/
def validate (env : Env) (expect : Expect) (resp : Response) : Except JsErr Unit :=
  match checkStatusCode env (expect.statusCode.getD 200) resp.statusCode with
  | .error e => .error e
  | .ok () =>
    match checkBodyType env expect resp.body with
    | .error e => .error e
    | .ok () => checkHeaders env expect resp.headers

/-- The object `expect` after the checks: line 126 lower-cases `bodyType`
once the status code has passed. -/
def expectAfter (expect : Expect) (resp : Response) : Expect :=
  if resp.statusCode = expect.statusCode.getD 200 then
    { expect with bodyType := expect.bodyType.map toLowerCase }
  else expect

/-! ## Variable extraction (lines 165-187) -/

/-- The error of line 178; building its message stringifies both values. -/
def unexpectedValue (env : Env) (varName : Str) (expected actual : JsVal) : JsErr :=
  match jsToString expected, jsToString actual with
  | some e, some a =>
    { kind := .error,
      message := "Variable ".toList ++ env.chalk "bold.green" varName ++
        " value should be ".toList ++ env.chalk "blue.bold" e ++
        " but was detected as ".toList ++ env.chalk "red.bold" a }
  | _, _ => noPrimitive

/-- The error of line 183. -/
def missingVariable (env : Env) (varName : Str) : JsErr :=
  { kind := .error,
    message := "Variable ".toList ++ env.chalk "bold.green" varName ++
      " is missing from the response body. Cannot be applied to the test Context!".toList }

/-- The name under which a variable is registered: `varOptions.name || varName`. -/
def finalVarName (varName : Str) (varOptions : VarOptions) : Str :=
  match varOptions.name with
  | some n => if n.isEmpty then varName else n
  | none => varName

/-- The value of `registerVar` (line 169). -/
def registerVar (varOptions : VarOptions) : Bool :=
  match varOptions.register with
  | .bool b => b
  | _ => true

/-- The loop of lines 166-186 over the entries of `variables`, threading the
context; an error stops the loop and keeps the assignments made so far.  The
log of line 174 stringifies the value and so can raise. -/
def extractVariables (env : Env) (body : JsVal) :
    List (Str × VarOptions) → Context → Context × Option JsErr
  | [], context => (context, none)
  | (varName, varOptions) :: rest, context =>
    if env.has body varName then
      let context1 :=
        if registerVar varOptions then
          context.set (finalVarName varName varOptions) (env.get body varName)
        else context
      if registerVar varOptions ∧ jsToString (env.get body varName) = none then
        (context1, some noPrimitive)
      else
        match varOptions.value with
        | .undefined => extractVariables env body rest context1
        | expected =>
          if strictEq (env.get body varName) expected then
            extractVariables env body rest context1
          else (context1, some (unexpectedValue env varName expected (env.get body varName)))
    else
      match varOptions.required with
      | .bool true => (context, some (missingVariable env varName))
      | _ => extractVariables env body rest context

/-! ## One step and the whole run (lines 33-201) -/

/-- How the iteratee of `eachSeries` ends for one route: `done()` of a
skipped route, `done(null)`, `done(err)`, or an exception that leaves the
iteratee before `done` is called (the template resolution of lines 43-61 is
outside every `try` and outside the promise chain of the route). -/
inductive Outcome where
  | skipped
  | passed
  | failed (err : JsErr)
  | crashed (err : JsErr)
  deriving DecidableEq, Inhabited

/-- The state after one step: the outcome, the route object as the step left
it, the context, and the descriptor handed to `request`, if one was. -/
structure StepResult where
  outcome : Outcome
  route : Route
  context : Context
  sent : Option ReqOption
  deriving DecidableEq, Inhabited

/-- The default of lines 81-83, written into the object `expect`. -/
def withDefaultStatus (expect : Expect) : Expect :=
  { expect with statusCode := some (expect.statusCode.getD 200) }

/-- The object that `expect` defaults to when the route has none (line 80). -/
def emptyExpect : Expect := ⟨none, none, none, none⟩

/-- The iteratee of `eachSeries` (lines 33-192) for one route. -/
def runStep (env : Env) (baseUrl basePath : Str) (sentBefore : List ReqOption)
    (context : Context) (route : Route) : StepResult :=
  if route.skip then ⟨.skipped, route, context, none⟩
  else
    match resolveUrl context route.url with
    | .error e => ⟨.crashed e, route, context, none⟩
    | .ok url =>
      let route1 := { route with url := url, headers := (resolveHeaders context route.headers).1 }
      match (resolveHeaders context route.headers).2 with
      | some e => ⟨.crashed e, route1, context, none⟩
      | none =>
        let expect := withDefaultStatus (route.expect.getD emptyExpect)
        let route2 := { route1 with expect := route.expect.map withDefaultStatus }
        match attachFile env route.file (buildReqOption baseUrl basePath route1) with
        | .error e => ⟨.failed e, route2, context, none⟩
        | .ok reqOption =>
          match env.request sentBefore reqOption with
          | .error e => ⟨.failed e, route2, context, some reqOption⟩
          | .ok resp =>
            let route3 :=
              { route1 with expect := route.expect.map fun x => expectAfter (withDefaultStatus x) resp }
            match validate env expect resp with
            | .error e => ⟨.failed e, route3, context, some reqOption⟩
            | .ok () =>
              match route.vars with
              | none => ⟨.passed, route3, context, some reqOption⟩
              | some vars =>
                match (extractVariables env resp.body vars context).2 with
                | some e =>
                  ⟨.failed e, route3, (extractVariables env resp.body vars context).1, some reqOption⟩
                | none =>
                  ⟨.passed, route3, (extractVariables env resp.body vars context).1, some reqOption⟩

/-- How the run ends: the final callback runs without an error and exits with
status 0, or with the error that a step gave to `done` and exits with status
1, or an exception left an iteratee; what the process does then is decided by
`async` and by the runtime, not by the source, and is not modelled. -/
inductive Exit where
  | success
  | failure (err : JsErr)
  | crashed (err : JsErr)
  deriving DecidableEq, Inhabited

/-- The status that the final callback gives to `process.exit` (lines 197 and
200), as far as the source decides it. -/
def Exit.status : Exit → Option Nat
  | .success => some 0
  | .failure _ => some 1
  | .crashed _ => none

/-- The end of a run: how it ended, every descriptor handed to `request` in
order, and the context. -/
structure RunResult where
  exit : Exit
  sent : List ReqOption
  context : Context
  deriving DecidableEq, Inhabited

/-- The series of line 33: the routes in order, each after the one before has
called `done` without an error; `sent` holds the descriptors sent so far. -/
def eachSeries (env : Env) (baseUrl basePath : Str) :
    List Route → Context → List ReqOption → RunResult
  | [], context, sent => ⟨.success, sent, context⟩
  | route :: rest, context, sent =>
    match (runStep env baseUrl basePath sent context route).outcome with
    | .skipped =>
      eachSeries env baseUrl basePath rest
        (runStep env baseUrl basePath sent context route).context
        (sent ++ (runStep env baseUrl basePath sent context route).sent.toList)
    | .passed =>
      eachSeries env baseUrl basePath rest
        (runStep env baseUrl basePath sent context route).context
        (sent ++ (runStep env baseUrl basePath sent context route).sent.toList)
    | .failed e =>
      ⟨.failure e, sent ++ (runStep env baseUrl basePath sent context route).sent.toList,
        (runStep env baseUrl basePath sent context route).context⟩
    | .crashed e =>
      ⟨.crashed e, sent ++ (runStep env baseUrl basePath sent context route).sent.toList,
        (runStep env baseUrl basePath sent context route).context⟩

/-- The handler of the `started` event (lines 29-202): `url` is
`app.get('url')`, `basePath` the option of that name, `api` when absent. -/
def loopbackModelTester (env : Env) (url : Str) (config : List Route) (basePath : Option Str) :
    RunResult :=
  eachSeries env (stripTrailingSlash url) (basePath.getD "api".toList) config Context.empty []

/-! ## Concrete collaborators for the examples -/

/-- The index that a canonical decimal key names. -/
def indexOfKey (k : Str) : Option Nat :=
  if k ≠ [] ∧ k.all Char.isDigit = true ∧ natToStr (digitsToNat k) = k then some (digitsToNat k)
  else none

/-- The own property `k` of a value, as `hasOwnProperty.call(value, k)` and
`value[k]` see it: a property of an object, an element or the length of an
array, a character or the length of a string. -/
def ownProp : JsVal → Str → Option JsVal
  | .obj props, k => lookup k props
  | .arr items, k =>
    if k = "length".toList then some (.num items.length)
    else (indexOfKey k).bind fun i => items.get? i
  | .str s, k =>
    if k = "length".toList then some (.num s.length)
    else (indexOfKey k).bind fun i => (s.get? i).map fun c => .str [c]
  | _, _ => none

/-- The value at a list of keys, each an own property of the value before. -/
def walk : JsVal → List Str → Option JsVal
  | v, [] => some v
  | v, k :: ks =>
    match ownProp v k with
    | some w => walk w ks
    | none => none

/-- The keys of a path: the non-empty runs between dots and brackets. -/
def splitPath : Str → Str → List Str
  | acc, [] => if acc.isEmpty then [] else [acc.reverse]
  | acc, c :: cs =>
    if c = '.' ∨ c = '[' ∨ c = ']' then
      if acc.isEmpty then splitPath [] cs else acc.reverse :: splitPath [] cs
    else splitPath (c :: acc) cs

/-- The keys lodash reads a path as, for paths of names, dots and bracketed
indices without quotes: a path that is an own key of the value is that key. -/
def castPath (value : JsVal) (path : Str) : List Str :=
  if (ownProp value path).isSome then [path] else splitPath [] path

/-- A model of `has` of lodash on such paths. -/
def lodashHas (value : JsVal) (path : Str) : Bool :=
  !(castPath value path).isEmpty && (walk value (castPath value path)).isSome

/-- A model of `get` of lodash on such paths. -/
def lodashGet (value : JsVal) (path : Str) : JsVal :=
  (walk value (castPath value path)).getD .undefined

/-- The error a canned client gives once its responses are used up. -/
def noResponse : JsErr :=
  { kind := .transportError, message := "Error: connect ECONNREFUSED".toList }

/-- Collaborators for the examples: the lodash model, chalk without colours,
and a client that answers the n-th request with the n-th given answer. -/
def demoEnv (answers : List (Except JsErr Response)) : Env :=
  { has := lodashHas
    get := lodashGet
    chalk := fun _ s => s
    basename := fun path => path
    createReadStream := fun path => .ok (.str path)
    mimeLookup := fun _ => .bool false
    request := fun sentBefore _ => (answers.get? sentBefore.length).getD (.error noResponse) }

/-- A route with only a title and a url. -/
def plainRoute (title url : Str) : Route :=
  { title := title, skip := false, debug := false, method := none, model := none, url := url,
    headers := .undefined, qs := .undefined, body := .undefined, formData := .undefined,
    file := none, expect := none, vars := none }

/-- A response with a status code and a body, without headers. -/
def plainResponse (statusCode : Int) (body : JsVal) : Response :=
  ⟨statusCode, body, []⟩

/-- A small context for the examples. -/
def demoContext : Context :=
  ⟨[("id".toList, .num 7), ("a.b".toList, .str "X".toList), ("1".toList, .str "v".toList)], .objectPrototype⟩

/-- The base url of the examples, as `app.get('url')` gives it. -/
def demoUrl : Str := "http://localhost:3000/".toList

/-- An `expect` with a status code only. -/
def expectStatus (code : Int) : Expect := ⟨some code, none, none, none⟩

/-- A route that expects the status code 200. -/
def routeExpecting200 : Route :=
  { plainRoute "get user".toList "users/1".toList with expect := some (expectStatus 200) }

/-- The message of the failed status assertion for a response with code 404. -/
def message404 : Str :=
  "Invalid response statusCode. Should be [object Object] but returned code 404".toList

/-- A route that expects a header, with the key as given. -/
def routeExpectingHeader (key : Str) : Route :=
  { plainRoute "get user".toList "users/1".toList with
    expect := some ⟨none, none, none, some [(key, "application/json".toList)]⟩ }

/-- A response with status 200 and a JSON content type. -/
def jsonResponse : Response :=
  ⟨200, .obj [], [("content-type".toList, .single "application/json; charset=utf-8".toList)]⟩

/-- The options of a variable that is registered under its own path. -/
def registerOnly : VarOptions := ⟨none, .bool true, .undefined, .undefined⟩

/-- A route whose `variables` registers one body path under its own name. -/
def routeRegistering (path : Str) : Route :=
  { plainRoute "create item".toList "items".toList with vars := some [(path, registerOnly)] }

/-- A response body with an array and a number. -/
def bodyWithArray : JsVal :=
  .obj [("a".toList, .arr [.num 7]), ("id".toList, .num 5)]

/-- A context with a key of digits and two keys that differ in one character,
the first with a dot. -/
def dottedContext : Context :=
  ⟨[("1".toList, .str "v".toList), ("a.b".toList, .str "X".toList),
    ("aXb".toList, .str "Y".toList)], .objectPrototype⟩

/-- A route whose `variables` registers the path `id` under the name
`hasOwnProperty`. -/
def routeShadowing : Route :=
  { plainRoute "login".toList "login".toList with
    vars := some [("id".toList, ⟨some "hasOwnProperty".toList, .undefined, .undefined, .undefined⟩)] }

/-- A route whose url has the placeholder of `id`. -/
def routeWithPlaceholder : Route :=
  plainRoute "read user".toList ("users/".toList ++ placeholder "id".toList)

/-- The context that the step of `routeShadowing` leaves for the body with `id` 5. -/
def shadowedContext : Context := ⟨[("hasOwnProperty".toList, .num 5)], .objectPrototype⟩

/-- The routes A, B and C of the fail-fast example; B expects the status 201. -/
def routeA : Route := plainRoute "A".toList "a".toList

/-- The second route of the fail-fast example. -/
def routeB : Route := { plainRoute "B".toList "b".toList with expect := some (expectStatus 201) }

/-- The third route of the fail-fast example. -/
def routeC : Route := plainRoute "C".toList "c".toList

/-- A client that answers every request with the status 200 and an empty body. -/
def okEnv : Env :=
  { demoEnv [] with request := fun _ _ => .ok (plainResponse 200 .null) }

/-- The error with which the step of `routeB` fails under `okEnv`. -/
def errorOfB : JsErr :=
  ⟨.assertionError,
    "Invalid response statusCode. Should be [object Object] but returned code 200".toList, none⟩

/-! ## Vocabulary of the statements -/

/-- An identifier of the template expression: a non-empty run of characters
of the class `[a-zA-Z0-9._-]`. -/
def validId (id : Str) : Prop := id ≠ [] ∧ ∀ c ∈ id, isIdChar c = true

instance (id : Str) : Decidable (validId id) := by
  unfold validId; infer_instance

/-- No match of the template expression starts anywhere in the string. -/
def noPlaceholder : Str → Bool
  | [] => true
  | c :: cs => (matchId (c :: cs)).isNone && noPlaceholder cs

/-- A url written as its pieces: each piece is a text without placeholder
followed by the placeholder of an identifier, and `last` is the text after
the last placeholder. -/
def templateOf (parts : List (Str × Str)) (last : Str) : Str :=
  parts.foldr (fun part rest => part.1 ++ placeholder part.2 ++ rest) last

/-- The string representation of `context[id]`: the text of the value when
`id` is an own key, the text `undefined` otherwise. -/
def stringOf (context : Context) (id : Str) : Option Str :=
  jsToString ((lookup id context.own).getD .undefined)

/-- The url of `templateOf` with every placeholder replaced by the string
representation of its context entry and every text kept. -/
def resolvedOf (context : Context) (parts : List (Str × Str)) (last : Str) : Str :=
  parts.foldr (fun part rest => part.1 ++ (stringOf context part.2).getD [] ++ rest) last

/-- Every route of the list, run in order from the given context, ends with
`done()` or `done(null)`: it is skipped, or its request, its validation and
its extraction complete without an error. -/
def allComplete (env : Env) (baseUrl basePath : Str) : List Route → Context → List ReqOption → Prop
  | [], _, _ => True
  | route :: rest, context, sent =>
    ((runStep env baseUrl basePath sent context route).outcome = .skipped ∨
      (runStep env baseUrl basePath sent context route).outcome = .passed) ∧
    allComplete env baseUrl basePath rest
      (runStep env baseUrl basePath sent context route).context
      (sent ++ (runStep env baseUrl basePath sent context route).sent.toList)

/-- The status code a route expects: its `expect.statusCode`, and 200 when the
route has no `expect` or its `expect` has no `statusCode`. -/
def expectedStatus (route : Route) : Int :=
  match route.expect with
  | none => 200
  | some expect =>
    match expect.statusCode with
    | none => 200
    | some code => code

/-- The error of the assertion of line 127. -/
def bodyTypeError (env : Env) (bodyType : Str) (body : JsVal) : JsErr :=
  { kind := .assertionError,
    message := "Invalid type for the returned response body. Should be ".toList ++
      env.chalk "green.bold" (toLowerCase bodyType) ++
      " but detected as ".toList ++ env.chalk "red.bold" (toLowerCase (is body)) }

/-- The body of the properties example. -/
def userBody : JsVal := .obj [("user".toList, .obj [("id".toList, .num 5)])]

/-- An `expect` with the body type `object` and one declared property. -/
def expectProperty (key ty : Str) : Expect :=
  ⟨none, some "object".toList, some [(key, ty)], none⟩

/-- An `expect` with a body type only. -/
def expectBodyType (bodyType : Str) : Expect := ⟨none, some bodyType, none, none⟩

/-- The failure condition of one entry of `variables`: its path resolves in
the body to a value that is not strictly equal to its defined `value`, or its
path does not resolve and its `required` is `true`. -/
def entryFails (env : Env) (body : JsVal) (entry : Str × VarOptions) : Prop :=
  (env.has body entry.1 = true ∧ entry.2.value ≠ .undefined ∧
      strictEq (env.get body entry.1) entry.2.value = false)
  ∨ (env.has body entry.1 = false ∧ entry.2.required = .bool true)

instance (env : Env) (body : JsVal) (entry : Str × VarOptions) :
    Decidable (entryFails env body entry) := by
  unfold entryFails; infer_instance

/-- Options without any field. -/
def noOptions : VarOptions := ⟨none, .undefined, .undefined, .undefined⟩

/-- A body whose property `profile` is an object with the own key `toString`. -/
def bodyWithToString : JsVal :=
  .obj [("profile".toList, .obj [("toString".toList, .str "x".toList)])]

/-- A route that declares the variable `profile` without options. -/
def routeProfile : Route :=
  { plainRoute "read profile".toList "profile".toList with
    vars := some [("profile".toList, noOptions)] }

/-- The assignments that the entries of `variables` make, in order: the name
and the value of every entry whose path resolves in the body and whose
`register` is not `false`. -/
def registrations (env : Env) (body : JsVal) : List (Str × VarOptions) → List (Str × JsVal)
  | [] => []
  | (p, o) :: rest =>
    if env.has body p = true ∧ registerVar o = true then
      (finalVarName p o, env.get body p) :: registrations env body rest
    else registrations env body rest

/-- The context after the assignments `context[name] = value` of a list, in order. -/
def assignAll (context : Context) (regs : List (Str × JsVal)) : Context :=
  regs.foldl (fun c r => c.set r.1 r.2) context

/-- Whether a key is an integer index, which `Object.keys` lists before the
other keys: a canonical decimal numeral below `2^32 - 1`. -/
def isArrayIndex (k : Str) : Bool :=
  (indexOfKey k).isSome && decide (digitsToNat k < 4294967295)

/-- One entry put into a list of entries with index keys in ascending order. -/
def insertIndexed {α : Type} (e : Str × α) : List (Str × α) → List (Str × α)
  | [] => [e]
  | f :: rest =>
    if digitsToNat e.1 ≤ digitsToNat f.1 then e :: f :: rest else f :: insertIndexed e rest

/-- The order in which `Object.keys` lists the entries of an object literal
with distinct keys: the integer indices in ascending order, then the other
keys in the order of the literal. -/
def objectKeysOrder {α : Type} (literal : List (Str × α)) : List (Str × α) :=
  (literal.filter fun e => isArrayIndex e.1).foldr insertIndexed []
    ++ literal.filter fun e => !isArrayIndex e.1

/-- Options that register a variable under a name. -/
def registerAs (name : Str) : VarOptions := ⟨some name, .undefined, .undefined, .undefined⟩

/-- A route whose `variables` registers the paths `a` and `b` under the one
name `x`. -/
def routeSameName : Route :=
  { plainRoute "read pair".toList "pair".toList with
    vars := some [("a".toList, registerAs "x".toList), ("b".toList, registerAs "x".toList)] }

/-- A body with the properties `a` = 1 and `b` = 2. -/
def bodyPair : JsVal := .obj [("a".toList, .num 1), ("b".toList, .num 2)]

/-- The route after the template resolution of lines 43-61. -/
def hydrated (context : Context) (route : Route) (url : Str) : Route :=
  { route with url := url, headers := (resolveHeaders context route.headers).1 }

/-- The route as a step that received the response `resp` leaves it. -/
def routeAfter (context : Context) (route : Route) (url : Str) (resp : Response) : Route :=
  { hydrated context route url with
    expect := route.expect.map fun x => expectAfter (withDefaultStatus x) resp }

/-- Two header values that are equal or both strings. -/
def entryFrame (a b : JsVal) : Prop := a = b ∨ ∃ s t, a = .str s ∧ b = .str t

/-- Two lists of headers with the same keys in the same order, whose values
are equal or both strings. -/
def propsFrame : List (Str × JsVal) → List (Str × JsVal) → Prop
  | [], [] => True
  | p :: ps, q :: qs => p.1 = q.1 ∧ entryFrame p.2 q.2 ∧ propsFrame ps qs
  | _, _ => False

/-- Two lists of values of the same length, whose elements are equal or both
strings. -/
def itemsFrame : List JsVal → List JsVal → Prop
  | [], [] => True
  | x :: xs, y :: ys => entryFrame x y ∧ itemsFrame xs ys
  | _, _ => False

/-- Two values of `headers` that differ at most in the text of their string
entries. -/
def headersFrame : JsVal → JsVal → Prop
  | .obj ps, .obj qs => propsFrame ps qs
  | .arr xs, .arr ys => itemsFrame xs ys
  | a, b => a = b

/-- Two values of `expect` that differ at most in `statusCode`, which may have
taken the default 200, and in `bodyType`, which may have been lower-cased. -/
def expectFrame : Option Expect → Option Expect → Prop
  | none, none => True
  | some e, some e' =>
    e'.properties = e.properties ∧ e'.headers = e.headers
    ∧ (e'.statusCode = e.statusCode ∨ e'.statusCode = some (e.statusCode.getD 200))
    ∧ (e'.bodyType = e.bodyType ∨ e'.bodyType = e.bodyType.map toLowerCase)
  | _, _ => False

/-- A route with a placeholder in its url and an expected body type `Object`. -/
def routeMutated : Route :=
  { plainRoute "read user".toList ("users/".toList ++ placeholder "id".toList) with
    expect := some (expectBodyType "Object".toList) }

/-- The result of a step whose descriptor `req` was answered with `resp`: the
validation, then the extraction (lines 109-191). -/
def stepAfterResponse (env : Env) (context : Context) (route : Route) (url : Str)
    (req : ReqOption) (resp : Response) : StepResult :=
  match validate env (withDefaultStatus (route.expect.getD emptyExpect)) resp with
  | .error e => ⟨.failed e, routeAfter context route url resp, context, some req⟩
  | .ok () =>
    match route.vars with
    | none => ⟨.passed, routeAfter context route url resp, context, some req⟩
    | some vars =>
      match (extractVariables env resp.body vars context).2 with
      | some e =>
        ⟨.failed e, routeAfter context route url resp,
          (extractVariables env resp.body vars context).1, some req⟩
      | none =>
        ⟨.passed, routeAfter context route url resp,
          (extractVariables env resp.body vars context).1, some req⟩

/-- A route with falsy payloads: the body 0, the query `false`, the empty
string as form data and `null` as headers would be. -/
def routeFalsy : Route :=
  { plainRoute "post zero".toList "counter".toList with
    method := some "POST".toList, body := .num 0, qs := .bool false, formData := .str [] }

/-- The method of the descriptor as the claim states it: the method of the
route, and `GET` when the route gives none or the empty string. -/
def methodOf (route : Route) : Str :=
  match route.method with
  | some m => if m = [] then "GET".toList else m
  | none => "GET".toList

/-- A route with a body, a header with a placeholder, a method and a model. -/
def routePayload : Route :=
  { plainRoute "update user".toList ("users/".toList ++ placeholder "id".toList) with
    method := some "PUT".toList, model := some "v1".toList,
    body := .obj [("name".toList, .str "Ann".toList)],
    headers := .obj [("x-user".toList, .str ("u".toList ++ placeholder "id".toList))] }

/-- The descriptor that the step of `routePayload` sends in the context of the
examples. -/
def reqPayload : ReqOption :=
  ⟨"PUT".toList, "http://localhost:3000/api/v1/users/7".toList, .undefined,
    .obj [("name".toList, .str "Ann".toList)],
    .obj [("x-user".toList, .str "u7".toList)], .undefined⟩

/-- A route that declares the property `user.id` of type `string` without an
expected body type. -/
def routePropertiesOnly : Route :=
  { plainRoute "read user".toList "users/1".toList with
    expect := some ⟨none, none, some [("user.id".toList, "string".toList)], none⟩ }

/-- Options that register a variable and expect the value 6. -/
def expectSix : VarOptions := ⟨none, .undefined, .undefined, .num 6⟩

/-- A route that registers `a` and then declares `id` with the expected value 6. -/
def routeUnexpected : Route :=
  { plainRoute "read item".toList "items/1".toList with
    vars := some ([("a".toList, noOptions)] ++ ("id".toList, expectSix) :: []) }

/-- The descriptor that the step of `routeUnexpected` sends. -/
def reqUnexpected : ReqOption :=
  ⟨"GET".toList, "http://localhost:3000/api/items/1".toList, .undefined, .undefined, .undefined,
    .undefined⟩

/-- A body with the properties `a` = 1 and `id` = 5. -/
def bodyItem : JsVal := .obj [("a".toList, .num 1), ("id".toList, .num 5)]

/-- Options of a required variable. -/
def requiredOptions : VarOptions := ⟨none, .undefined, .bool true, .undefined⟩

/-- A route that declares the required variable `missing` and then `id` with
the expected value 6. -/
def routeLater : Route :=
  { plainRoute "read item".toList "items/1".toList with
    vars := some [("missing".toList, requiredOptions), ("id".toList, expectSix)] }

/-- A route that declares `id` with the expected value 6 under the name
`__proto__`. -/
def routeProtoName : Route :=
  { plainRoute "read item".toList "items/1".toList with
    vars := some [("id".toList, ⟨some "__proto__".toList, .undefined, .undefined, .num 6⟩)] }

/-- A route that declares `id` with the expected value 6 and expects the
status code 201. -/
def routeCreated : Route :=
  { plainRoute "read item".toList "items/1".toList with
    expect := some (expectStatus 201),
    vars := some [("id".toList, expectSix)] }

/-! ## Lemmas on scanning and on the url resolver -/

theorem lookup_assign {α : Type} (k : Str) (v : α) (l : List (Str × α)) :
    lookup k (assign k v l) = some v := by
  induction l with
  | nil => simp [assign, lookup]
  | cons hd tl ih =>
    obtain ⟨k', v'⟩ := hd
    by_cases h : k' = k
    · simp [assign, lookup, h]
    · simp [assign, lookup, h, ih]

theorem lookup_assign_ne {α : Type} (k k2 : Str) (v : α) (l : List (Str × α)) (h : k2 ≠ k) :
    lookup k2 (assign k v l) = lookup k2 l := by
  induction l with
  | nil => simp [assign, lookup, Ne.symm h]
  | cons hd tl ih =>
    obtain ⟨k', v'⟩ := hd
    by_cases h1 : k' = k
    · subst h1
      simp [assign, lookup, Ne.symm h]
    · by_cases h2 : k' = k2
      · subst h2
        simp [assign, lookup, h1]
      · simp [assign, lookup, h1, h2, ih]

theorem isIdChar_dollar : isIdChar '$' = false := by decide

theorem isIdChar_rbrace : isIdChar rbrace = false := by decide

theorem matchPlaceholder_nil : matchPlaceholder [] = none := rfl

theorem matchId_append_dollar (t rest : Str) (ht : t ≠ []) (h : matchId t = none) :
    matchId (t ++ '$' :: rest) = none := by
  match t, ht with
  | [c], _ =>
    have : ¬ ('$' = lbrace) := by decide
    simp [matchId, this]
  | c :: d :: t', _ =>
    simp only [matchId] at h
    simp only [List.cons_append, matchId]
    rw [if_neg]
    intro hc
    obtain ⟨h1, h2, h3, h4⟩ := hc
    by_cases hall : ∀ a ∈ t', isIdChar a = true
    · rw [List.dropWhile_append_of_pos hall] at h4
      have hd : List.dropWhile isIdChar ('$' :: rest) = '$' :: rest := by
        rw [List.dropWhile_cons_of_neg]; simp [isIdChar_dollar]
      rw [hd] at h4
      have h7 : ¬ ('$' = rbrace) := by decide
      simp [h7] at h4
    · have hne : List.dropWhile isIdChar t' ≠ [] := by
        intro hnil
        apply hall
        intro a ha
        have := List.dropWhile_eq_nil_iff.mp hnil a ha
        simpa using this
      have hlen : ¬ (List.takeWhile isIdChar t').length = t'.length := by
        intro hl
        apply hne
        have h5 := List.takeWhile_append_dropWhile isIdChar t'
        have h6 : (List.takeWhile isIdChar t' ++ List.dropWhile isIdChar t').length = t'.length := by
          rw [h5]
        rw [List.length_append, hl] at h6
        exact List.length_eq_zero.mp (by omega)
      have ht : List.takeWhile isIdChar (t' ++ '$' :: rest) = List.takeWhile isIdChar t' := by
        rw [List.takeWhile_append, if_neg hlen]
      have hdr : List.dropWhile isIdChar (t' ++ '$' :: rest)
          = List.dropWhile isIdChar t' ++ '$' :: rest := by
        rw [List.dropWhile_append]
        simp [hne]
      rw [ht] at h3
      rw [hdr] at h4
      have h4' : (List.dropWhile isIdChar t').head? = some rbrace := by
        cases hdw : List.dropWhile isIdChar t' with
        | nil => exact absurd hdw hne
        | cons x xs => rw [hdw] at h4; simpa using h4
      rw [if_pos ⟨h1, h2, h3, h4'⟩] at h
      exact absurd h (by simp)

theorem matchId_placeholder (id post : Str) (hid : validId id) :
    matchId (placeholder id ++ post) = some id := by
  obtain ⟨hne, hall⟩ := hid
  have ht : List.takeWhile isIdChar (id ++ rbrace :: post) = id := by
    rw [List.takeWhile_append_of_pos hall, List.takeWhile_cons_of_neg (by simp [isIdChar_rbrace])]
    simp
  have hd : List.dropWhile isIdChar (id ++ rbrace :: post) = rbrace :: post := by
    rw [List.dropWhile_append_of_pos hall, List.dropWhile_cons_of_neg (by simp [isIdChar_rbrace])]
  simp only [placeholder, List.cons_append, List.append_assoc, List.singleton_append,
    List.nil_append, matchId]
  rw [ht, hd]
  simp [hne]

theorem idOfMatch_placeholder (id : Str) : idOfMatch (placeholder id) = id := by
  simp [idOfMatch, placeholder]

theorem scanFrom_cons_succ (m : Str → Option Nat) (acc : Str) (c : Char) (cs : Str) (k : Nat) :
    scanFrom m acc (c :: cs) (k + 1) = scanFrom m (c :: acc) cs k := rfl

theorem scanFrom_cons_none (m : Str → Option Nat) (acc : Str) (c : Char) (cs : Str)
    (h : m (c :: cs) = none) :
    scanFrom m acc (c :: cs) 0 = Seg.text c :: scanFrom m (c :: acc) cs 0 := by
  rw [scanFrom, h]

theorem scanFrom_cons_some (m : Str → Option Nat) (acc : Str) (c : Char) (cs : Str) (n : Nat)
    (h : m (c :: cs) = some (n + 1)) :
    scanFrom m acc (c :: cs) 0
      = Seg.hit ⟨acc.reverse, (c :: cs).take (n + 1), (c :: cs).drop (n + 1)⟩ ::
          scanFrom m (c :: acc) cs n := by
  rw [scanFrom, h]

theorem scanFrom_cons_empty (m : Str → Option Nat) (acc : Str) (c : Char) (cs : Str)
    (h : m (c :: cs) = some 0) :
    scanFrom m acc (c :: cs) 0
      = Seg.hit ⟨acc.reverse, [], c :: cs⟩ :: Seg.text c :: scanFrom m (c :: acc) cs 0 := by
  rw [scanFrom, h]

theorem scanFrom_skip (m : Str → Option Nat) (xs post acc : Str) :
    scanFrom m acc (xs ++ post) xs.length = scanFrom m (xs.reverse ++ acc) post 0 := by
  induction xs generalizing acc with
  | nil => simp
  | cons c cs ih =>
    rw [List.cons_append, List.length_cons, scanFrom_cons_succ, ih]
    simp

theorem scanFrom_text (pre rest acc : Str) (h : noPlaceholder pre = true) :
    scanFrom matchPlaceholder acc (pre ++ '$' :: rest) 0
      = pre.map Seg.text ++ scanFrom matchPlaceholder (pre.reverse ++ acc) ('$' :: rest) 0 := by
  induction pre generalizing acc with
  | nil => simp
  | cons c cs ih =>
    simp only [noPlaceholder, Bool.and_eq_true, Option.isNone_iff_eq_none] at h
    have hm : matchPlaceholder (c :: (cs ++ '$' :: rest)) = none := by
      have := matchId_append_dollar (c :: cs) rest (by simp) h.1
      simp only [List.cons_append] at this
      simp [matchPlaceholder, this]
    rw [List.cons_append, scanFrom_cons_none _ _ _ _ hm, ih _ h.2]
    simp

theorem scanFrom_noPlaceholder (s acc : Str) (h : noPlaceholder s = true) :
    scanFrom matchPlaceholder acc s 0 = s.map Seg.text := by
  induction s generalizing acc with
  | nil => simp [scanFrom, matchPlaceholder_nil]
  | cons c cs ih =>
    simp only [noPlaceholder, Bool.and_eq_true, Option.isNone_iff_eq_none] at h
    have hm : matchPlaceholder (c :: cs) = none := by simp [matchPlaceholder, h.1]
    rw [scanFrom_cons_none _ _ _ _ hm, ih _ h.2]
    simp

theorem scanFrom_placeholder (id post acc : Str) (hid : validId id) :
    scanFrom matchPlaceholder acc (placeholder id ++ post) 0
      = Seg.hit ⟨acc.reverse, placeholder id, post⟩ ::
          scanFrom matchPlaceholder ((placeholder id).reverse ++ acc) post 0 := by
  have hm : matchPlaceholder (placeholder id ++ post)
      = some ((lbrace :: (id ++ [rbrace])).length + 1) := by
    simp [matchPlaceholder, matchId_placeholder id post hid]
  have hcons : placeholder id ++ post = '$' :: ((lbrace :: (id ++ [rbrace])) ++ post) := by
    simp [placeholder]
  rw [hcons] at hm ⊢
  rw [scanFrom_cons_some _ _ _ _ _ hm, scanFrom_skip]
  have htake : List.take ((lbrace :: (id ++ [rbrace])).length + 1)
      ('$' :: ((lbrace :: (id ++ [rbrace])) ++ post)) = placeholder id := by
    rw [List.take_succ_cons, List.take_left]
    simp [placeholder]
  have hdrop : List.drop ((lbrace :: (id ++ [rbrace])).length + 1)
      ('$' :: ((lbrace :: (id ++ [rbrace])) ++ post)) = post := by
    rw [List.drop_succ_cons, List.drop_left]
  rw [htake, hdrop]
  simp [placeholder]

theorem replaceSegs_acc (f : Str → Except JsErr Str) (m : Str → Option Nat) (s acc acc2 : Str)
    (k : Nat) :
    replaceSegs f (scanFrom m acc s k) = replaceSegs f (scanFrom m acc2 s k) := by
  induction s generalizing acc acc2 k with
  | nil =>
    simp only [scanFrom]
    cases m [] <;> simp [replaceSegs]
  | cons c cs ih =>
    cases k with
    | succ k => rw [scanFrom_cons_succ, scanFrom_cons_succ]; exact ih _ _ _
    | zero =>
      cases hm : m (c :: cs) with
      | none =>
        rw [scanFrom_cons_none _ _ _ _ hm, scanFrom_cons_none _ _ _ _ hm]
        simp only [replaceSegs]; rw [ih (c :: acc) (c :: acc2) 0]
      | some n =>
        cases n with
        | zero =>
          rw [scanFrom_cons_empty _ _ _ _ hm, scanFrom_cons_empty _ _ _ _ hm]
          simp only [replaceSegs]; rw [ih (c :: acc) (c :: acc2) 0]
        | succ n =>
          rw [scanFrom_cons_some _ _ _ _ _ hm, scanFrom_cons_some _ _ _ _ _ hm]
          simp only [replaceSegs]; rw [ih (c :: acc) (c :: acc2) n]

theorem replaceSegs_text (f : Str → Except JsErr Str) (pre : Str) (segs : List Seg) :
    replaceSegs f (pre.map Seg.text ++ segs)
      = match replaceSegs f segs with
        | .ok r => .ok (pre ++ r)
        | .error e => .error e := by
  induction pre with
  | nil => cases h : replaceSegs f segs <;> simp [h]
  | cons c cs ih =>
    rw [List.map_cons, List.cons_append, replaceSegs, ih]
    cases h : replaceSegs f segs <;> simp

/-- A string without placeholders is its own resolution, in every context. -/
theorem resolveUrl_noPlaceholder (context : Context) (s : Str) (h : noPlaceholder s = true) :
    resolveUrl context s = .ok s := by
  unfold resolveUrl scan
  rw [scanFrom_noPlaceholder s [] h]
  have := replaceSegs_text (urlReplacer context) s []
  simpa [replaceSegs] using this

/-- The resolution of a string at its first placeholder: the text before it
is kept, the placeholder becomes the replacer's text, and the rest of the
string is resolved in the same way. -/
theorem resolveUrl_placeholder (context : Context) (pre id post : Str)
    (hpre : noPlaceholder pre = true) (hid : validId id) :
    resolveUrl context (pre ++ placeholder id ++ post)
      = match urlReplacer context id with
        | .error e => .error e
        | .ok t =>
          match resolveUrl context post with
          | .ok r => .ok (pre ++ t ++ r)
          | .error e => .error e := by
  unfold resolveUrl scan
  have hsplit : pre ++ placeholder id ++ post
      = pre ++ '$' :: (lbrace :: (id ++ [rbrace]) ++ post) := by
    simp [placeholder]
  have hback : '$' :: (lbrace :: (id ++ [rbrace]) ++ post) = placeholder id ++ post := by
    simp [placeholder]
  rw [hsplit, scanFrom_text pre _ [] hpre, hback, scanFrom_placeholder id post _ hid,
    replaceSegs_text]
  simp only [replaceSegs, idOfMatch_placeholder]
  rw [replaceSegs_acc (urlReplacer context) matchPlaceholder post _ [] 0]
  cases h1 : urlReplacer context id with
  | error e => simp
  | ok t =>
    cases h2 : replaceSegs (urlReplacer context) (scanFrom matchPlaceholder [] post 0) with
    | error e => simp
    | ok r => simp

/-! ## C1: the message of a status-code failure -/

/-- C1, defect of the code: a step that expects the status code 200 and gets a
response with the code 404 fails with a message that contains `404` and the
text `[object Object]`, and not the expected code `200`; the same holds for a
response with the code 201.  Whatever the expected code, the assertion of
line 120 passes or fails with the one message built from the actual code. -/
theorem statusCode_message_omits_expected :
    (runStep (demoEnv [.ok (plainResponse 404 .null)]) (stripTrailingSlash demoUrl) "api".toList []
        Context.empty routeExpecting200).outcome
      = .failed ⟨.assertionError, message404, none⟩
    ∧ includes message404 "404".toList = true
    ∧ includes message404 "200".toList = false
    ∧ (runStep (demoEnv [.ok (plainResponse 201 .null)]) (stripTrailingSlash demoUrl) "api".toList []
        Context.empty routeExpecting200).outcome
      = .failed ⟨.assertionError,
          "Invalid response statusCode. Should be [object Object] but returned code 201".toList,
          none⟩
    ∧ ∀ (env : Env) (expected statusCode : Int),
        checkStatusCode env expected statusCode = .ok ()
        ∨ checkStatusCode env expected statusCode
          = .error ⟨.assertionError, statusCodeMessage env statusCode, none⟩ := by
  refine ⟨by decide, by decide, by decide, by decide, ?_⟩
  intro env expected statusCode
  by_cases h : statusCode = expected
  · left; simp [checkStatusCode, h]
  · right; simp [checkStatusCode, h]

/-! ## C2: the header check and the case of the expected key -/

/-- C2, defect of the code: expecting the header `Content-Type` to contain
`application/json` fails against the response header `content-type` with the
value `application/json; charset=utf-8`, because line 157 looks the
lower-cased key up in `expect.headers` and finds `undefined`; the same
expectation under the lower-case key passes. -/
theorem mixed_case_header_key_fails :
    (runStep (demoEnv [.ok jsonResponse]) (stripTrailingSlash demoUrl) "api".toList []
        Context.empty (routeExpectingHeader "Content-Type".toList)).outcome
      = .failed ⟨.assertionError,
          ("Invalid headers value for the key content-type. Should be (or contains) undefined" ++
            " but was application/json; charset=utf-8\x7d").toList, none⟩
    ∧ (runStep (demoEnv [.ok jsonResponse]) (stripTrailingSlash demoUrl) "api".toList []
        Context.empty (routeExpectingHeader "content-type".toList)).outcome = .passed := by
  decide

/-! ## C3: placeholders that the context does not know -/

theorem hydrate_unknown (context : Context) (ms : List Str) (cur : Str)
    (hctx : context.hasOwnPropertyCallable = true)
    (h : ∀ m ∈ ms, hasKey (idOfMatch m) context.own = false) :
    hydrate context ms cur = (cur, none) := by
  induction ms with
  | nil => rfl
  | cons m ms ih =>
    have hm := h m (List.mem_cons_self _ _)
    have hrest : ∀ m2 ∈ ms, hasKey (idOfMatch m2) context.own = false :=
      fun m2 h2 => h m2 (List.mem_cons_of_mem _ h2)
    simp [hydrate, Context.hasOwnProperty, hctx, hm, ih hrest]

/-- C3, counterexample: with an empty context the header value
`Bearer ${token}` stays as it is, not `Bearer `, and the url `users/${id}`
resolves to `users/undefined`, not to `users/`. -/
theorem unknown_placeholder_not_removed :
    resolveHeaderValue Context.empty ("Bearer ".toList ++ placeholder "token".toList)
      = ("Bearer ".toList ++ placeholder "token".toList, none)
    ∧ (resolveHeaderValue Context.empty ("Bearer ".toList ++ placeholder "token".toList)).1
      ≠ "Bearer ".toList
    ∧ resolveUrl Context.empty ("users/".toList ++ placeholder "id".toList)
      = .ok "users/undefined".toList
    ∧ resolveUrl Context.empty ("users/".toList ++ placeholder "id".toList)
      ≠ .ok "users/".toList := by
  decide

/-- C3, amended: in a context whose `hasOwnProperty` is the inherited method,
a string header value none of whose placeholders names a key of the context
is left as it is, placeholders included, and no error is raised. -/
theorem unknown_header_placeholder_kept (context : Context) (s : Str)
    (hctx : context.hasOwnPropertyCallable = true)
    (hs : ∀ m ∈ placeholderMatches s, hasKey (idOfMatch m) context.own = false) :
    resolveHeaderValue context s = (s, none) :=
  hydrate_unknown context _ s hctx hs

/-- C3, witness of the amended claim on `Bearer ${token}` in the context of
the examples, which has no key `token`. -/
theorem unknown_header_placeholder_kept_witness :
    demoContext.hasOwnPropertyCallable = true
    ∧ placeholderMatches ("Bearer ".toList ++ placeholder "token".toList)
      = [placeholder "token".toList]
    ∧ resolveHeaderValue demoContext ("Bearer ".toList ++ placeholder "token".toList)
      = ("Bearer ".toList ++ placeholder "token".toList, none) :=
  ⟨by decide, by decide,
    unknown_header_placeholder_kept demoContext
      ("Bearer ".toList ++ placeholder "token".toList) (by decide) (by decide)⟩

/-! ## C4: resolution of the url template -/

theorem urlReplacer_text (context : Context) (id t : Str)
    (hctx : context.hasOwnPropertyCallable = true)
    (ht : jsToString ((lookup id context.own).getD .undefined) = some t) :
    urlReplacer context id = .ok t := by
  unfold urlReplacer Context.hasOwnProperty
  rw [if_pos hctx]
  cases hk : hasKey id context.own with
  | true => simp [ht]
  | false =>
    have hnone : lookup id context.own = none := by
      simpa [hasKey] using hk
    rw [hnone] at ht
    simp only [Option.getD_none, jsToString, Option.some.injEq] at ht
    subst ht
    simp

/-- C4, defect of the code: with an empty context the url `a${x}b` does not
keep the text of the placeholder, whose identifier is no key of the context,
and resolves to `aundefinedb`, while the header resolver leaves the same
string as it is; and in a context with the own key `hasOwnProperty` the url
`${hasOwnProperty}`, whose identifier is a key, is not resolved at all: the
key test raises. -/
theorem unknown_placeholder_text_not_kept :
    resolveUrl Context.empty ("a".toList ++ placeholder "x".toList ++ "b".toList)
      = .ok "aundefinedb".toList
    ∧ resolveUrl Context.empty ("a".toList ++ placeholder "x".toList ++ "b".toList)
      ≠ .ok ("a".toList ++ placeholder "x".toList ++ "b".toList)
    ∧ resolveHeaderValue Context.empty ("a".toList ++ placeholder "x".toList ++ "b".toList)
      = ("a".toList ++ placeholder "x".toList ++ "b".toList, none)
    ∧ resolveUrl ⟨[("hasOwnProperty".toList, .str "x".toList)], .objectPrototype⟩
        (placeholder "hasOwnProperty".toList) = .error notAFunction := by
  decide

theorem resolveUrl_templateOf (context : Context) (parts : List (Str × Str)) (last : Str)
    (hctx : context.hasOwnPropertyCallable = true)
    (hparts : ∀ part ∈ parts, noPlaceholder part.1 = true ∧ validId part.2 ∧
      (stringOf context part.2).isSome = true)
    (hlast : noPlaceholder last = true) :
    resolveUrl context (templateOf parts last) = .ok (resolvedOf context parts last) := by
  induction parts with
  | nil => exact resolveUrl_noPlaceholder context last hlast
  | cons part parts ih =>
    obtain ⟨h1, h2, h3⟩ := hparts part (List.mem_cons_self _ _)
    have hrest := ih (fun q hq => hparts q (List.mem_cons_of_mem _ hq))
    obtain ⟨t, ht⟩ := Option.isSome_iff_exists.mp h3
    show resolveUrl context (part.1 ++ placeholder part.2 ++ templateOf parts last)
      = .ok (part.1 ++ (stringOf context part.2).getD [] ++ resolvedOf context parts last)
    rw [resolveUrl_placeholder context part.1 part.2 _ h1 h2,
      urlReplacer_text context part.2 t hctx ht, hrest, ht]
    rfl

/-- What the url resolver does: in a context whose `hasOwnProperty` is the
inherited method, a url made of texts without placeholder and of placeholders
`${id}` resolves to the same texts with every placeholder replaced by the
string representation of `context[id]`, which is the text `undefined` for an
`id` that is not a key of the context.  A url `s` without a placeholder is
returned unchanged, so resolving it twice equals resolving it once. -/
theorem url_template_resolution (context : Context) (parts : List (Str × Str)) (last s : Str)
    (hctx : context.hasOwnPropertyCallable = true)
    (hparts : ∀ part ∈ parts, noPlaceholder part.1 = true ∧ validId part.2 ∧
      (stringOf context part.2).isSome = true)
    (hlast : noPlaceholder last = true) (hs : noPlaceholder s = true) :
    resolveUrl context (templateOf parts last) = .ok (resolvedOf context parts last)
    ∧ (∀ id, hasKey id context.own = false → stringOf context id = some "undefined".toList)
    ∧ resolveUrl context s = .ok s
    ∧ (resolveUrl context s).bind (resolveUrl context) = resolveUrl context s := by
  refine ⟨resolveUrl_templateOf context parts last hctx hparts hlast, ?_,
    resolveUrl_noPlaceholder context s hs, ?_⟩
  · intro id hid
    have hnone : lookup id context.own = none := by simpa [hasKey] using hid
    simp [stringOf, hnone, jsToString]
  · rw [resolveUrl_noPlaceholder context s hs]
    show resolveUrl context s = .ok s
    exact resolveUrl_noPlaceholder context s hs

/-- The url resolver in the context of the examples, where `id` is 7 and `zz`
is no key: the url `users/${id}/x${zz}/end` resolves to
`users/7/xundefined/end`, and `users/1` resolves to itself. -/
theorem url_template_resolution_witness :
    templateOf [("users/".toList, "id".toList), ("/x".toList, "zz".toList)] "/end".toList
      = "users/".toList ++ placeholder "id".toList ++ "/x".toList ++ placeholder "zz".toList ++
          "/end".toList
    ∧ resolvedOf demoContext [("users/".toList, "id".toList), ("/x".toList, "zz".toList)]
        "/end".toList = "users/7/xundefined/end".toList
    ∧ resolveUrl demoContext
        (templateOf [("users/".toList, "id".toList), ("/x".toList, "zz".toList)] "/end".toList)
      = .ok (resolvedOf demoContext [("users/".toList, "id".toList), ("/x".toList, "zz".toList)]
          "/end".toList)
    ∧ (∀ id, hasKey id demoContext.own = false
        → stringOf demoContext id = some "undefined".toList)
    ∧ resolveUrl demoContext "users/1".toList = .ok "users/1".toList
    ∧ (resolveUrl demoContext "users/1".toList).bind (resolveUrl demoContext)
      = resolveUrl demoContext "users/1".toList :=
  ⟨by decide, by decide,
    url_template_resolution demoContext
      [("users/".toList, "id".toList), ("/x".toList, "zz".toList)] "/end".toList
      "users/1".toList (by decide) (by decide) (by decide) (by decide)⟩

/-! ## C5: a registered variable and a later placeholder -/

theorem extractVariables_single_register (env : Env) (body : JsVal) (p : Str) (opts : VarOptions)
    (context : Context) (hhas : env.has body p = true) (hreg : opts.register = .bool true)
    (hname : opts.name = none) :
    (extractVariables env body [(p, opts)] context).1 = context.set p (env.get body p) := by
  have hr : registerVar opts = true := by simp [registerVar, hreg]
  have hf : finalVarName p opts = p := by simp [finalVarName, hname]
  simp only [extractVariables, hhas, hr, hf, if_true]
  split
  · rfl
  · split <;> (try split) <;> rfl

theorem set_own (context : Context) (k : Str) (v : JsVal) (hk : k ≠ "__proto__".toList) :
    context.set k v = { context with own := assign k v context.own } := by
  unfold Context.set
  rw [if_neg]
  intro h
  exact hk h.1

theorem set_callable (context : Context) (k : Str) (v : JsVal) (hk : k ≠ "__proto__".toList)
    (hown : k ≠ "hasOwnProperty".toList) (hctx : context.hasOwnPropertyCallable = true) :
    (context.set k v).hasOwnPropertyCallable = true := by
  rw [set_own context k v hk]
  simp only [Context.hasOwnPropertyCallable, hasKey] at hctx ⊢
  rw [lookup_assign_ne k _ v context.own (Ne.symm hown)]
  exact hctx

/-- C5, counterexample: the path `a[0]` resolves in the body to 7 and is
stored in the context under the key `a[0]`, but the url `items/${a[0]}` of
the next route is sent as it is, since a bracket is no character of an
identifier of the template expression. -/
theorem bracket_path_not_substituted :
    lodashHas bodyWithArray "a[0]".toList = true
    ∧ lodashGet bodyWithArray "a[0]".toList = .num 7
    ∧ lookup "a[0]".toList
        (loopbackModelTester
          (demoEnv [.ok (plainResponse 200 bodyWithArray), .ok (plainResponse 200 .null)]) demoUrl
          [routeRegistering "a[0]".toList,
            plainRoute "read item".toList ("items/".toList ++ placeholder "a[0]".toList)]
          none).context.own = some (.num 7)
    ∧ (loopbackModelTester
          (demoEnv [.ok (plainResponse 200 bodyWithArray), .ok (plainResponse 200 .null)]) demoUrl
          [routeRegistering "a[0]".toList,
            plainRoute "read item".toList ("items/".toList ++ placeholder "a[0]".toList)]
          none).sent.map (fun r => r.url)
      = ["http://localhost:3000/api/items".toList,
          "http://localhost:3000/api/items/".toList ++ placeholder "a[0]".toList]
    ∧ resolveUrl ⟨[("a[0]".toList, .num 7)], .objectPrototype⟩
        ("items/".toList ++ placeholder "a[0]".toList) ≠ .ok "items/7".toList := by
  decide

/-- C5, amended: for a body path `p` made only of the characters
`[a-zA-Z0-9._-]`, other than `__proto__` and `hasOwnProperty`, that resolves
in the body to a value with the string representation `t`, an entry of
`variables` keyed `p` with `register` true and no `name` stores the value in
the context under the key `p`, and in that context a url resolves with its
first placeholder `${p}` replaced by `t`. -/
theorem context_round_trip (env : Env) (body : JsVal) (p : Str) (opts : VarOptions)
    (context : Context) (pre post t : Str)
    (hhas : env.has body p = true) (hreg : opts.register = .bool true) (hname : opts.name = none)
    (hid : validId p) (hproto : p ≠ "__proto__".toList) (hown : p ≠ "hasOwnProperty".toList)
    (hctx : context.hasOwnPropertyCallable = true)
    (ht : jsToString (env.get body p) = some t) (hpre : noPlaceholder pre = true) :
    lookup p (extractVariables env body [(p, opts)] context).1.own = some (env.get body p)
    ∧ resolveUrl (extractVariables env body [(p, opts)] context).1 (pre ++ placeholder p ++ post)
      = (match resolveUrl (extractVariables env body [(p, opts)] context).1 post with
        | .ok r => .ok (pre ++ t ++ r)
        | .error e => .error e) := by
  rw [extractVariables_single_register env body p opts context hhas hreg hname]
  have hlook : lookup p (context.set p (env.get body p)).own = some (env.get body p) := by
    rw [set_own context p _ hproto]
    exact lookup_assign p _ _
  refine ⟨hlook, ?_⟩
  rw [resolveUrl_placeholder _ pre p post hpre hid,
    urlReplacer_text _ p t (set_callable context p _ hproto hown hctx) (by rw [hlook]; exact ht)]

/-- C5, witness of the amended claim: the path `user.id` of the body
`{"user": {"id": 5}}` is stored under `user.id`, and `users/${user.id}/x`
then resolves with `5` in place of the placeholder. -/
theorem context_round_trip_witness :
    lodashHas (.obj [("user".toList, .obj [("id".toList, .num 5)])]) "user.id".toList = true
    ∧ lookup "user.id".toList
        (extractVariables (demoEnv []) (.obj [("user".toList, .obj [("id".toList, .num 5)])])
          [("user.id".toList, registerOnly)] Context.empty).1.own
      = some ((demoEnv []).get (.obj [("user".toList, .obj [("id".toList, .num 5)])])
          "user.id".toList)
    ∧ resolveUrl
        (extractVariables (demoEnv []) (.obj [("user".toList, .obj [("id".toList, .num 5)])])
          [("user.id".toList, registerOnly)] Context.empty).1
        ("users/".toList ++ placeholder "user.id".toList ++ "/x".toList)
      = (match resolveUrl
          (extractVariables (demoEnv []) (.obj [("user".toList, .obj [("id".toList, .num 5)])])
            [("user.id".toList, registerOnly)] Context.empty).1 "/x".toList with
        | .ok r => .ok ("users/".toList ++ "5".toList ++ r)
        | .error e => .error e) :=
  ⟨by decide,
    context_round_trip (demoEnv []) (.obj [("user".toList, .obj [("id".toList, .num 5)])])
      "user.id".toList registerOnly Context.empty "users/".toList "/x".toList "5".toList
      (by decide) (by decide) (by decide) (by decide) (by decide) (by decide) (by decide)
      (by decide) (by decide)⟩

/-! ## C6: the header resolver against the url resolver -/

/-- C6, defect of the code: with the keys `1`, `a.b` and `aXb` in the context,
the header value `id=${1}` becomes `id=v{1}` (the expression of line 58 reads
the braces as a quantifier and matches the dollar sign alone) and the header
value `${a.b}-${aXb}` becomes `X-X` (the dot of the identifier is a wildcard),
while the url resolver gives `id=v` and `X-Y`; the number-valued header is
left untouched. -/
theorem header_resolution_differs :
    resolveHeaders dottedContext
        (.obj [("x-id".toList, .str ("id=".toList ++ placeholder "1".toList)),
          ("x-pair".toList,
            .str (placeholder "a.b".toList ++ "-".toList ++ placeholder "aXb".toList)),
          ("x-count".toList, .num 3)])
      = (.obj [("x-id".toList, .str ("id=v".toList ++ [lbrace, '1', rbrace])),
          ("x-pair".toList, .str "X-X".toList), ("x-count".toList, .num 3)], none)
    ∧ resolveUrl dottedContext ("id=".toList ++ placeholder "1".toList) = .ok "id=v".toList
    ∧ resolveUrl dottedContext
        (placeholder "a.b".toList ++ "-".toList ++ placeholder "aXb".toList)
      = .ok "X-Y".toList := by
  decide

/-! ## C7: template resolution and a shadowed `hasOwnProperty` -/

/-- C7, defect of the code: the extraction of the path `id` under the name
`hasOwnProperty` leaves a context in which `context.hasOwnProperty` is the
number 5, and in that context the resolution of the url `users/${id}` and of
the header `Bearer ${id}` raises a `TypeError` instead of completing. -/
theorem template_resolution_throws :
    extractVariables (demoEnv []) (.obj [("id".toList, .num 5)])
        [("id".toList, ⟨some "hasOwnProperty".toList, .undefined, .undefined, .undefined⟩)]
        Context.empty
      = (shadowedContext, none)
    ∧ resolveUrl shadowedContext ("users/".toList ++ placeholder "id".toList)
      = .error notAFunction
    ∧ (resolveHeaders shadowedContext
        (.obj [("authorization".toList, .str ("Bearer ".toList ++ placeholder "id".toList))])).2
      = some notAFunction
    ∧ (runStep okEnv (stripTrailingSlash demoUrl) "api".toList [] shadowedContext
        routeWithPlaceholder).outcome = .crashed notAFunction := by
  decide

/-! ## C8: the first failure ends the run -/

theorem eachSeries_cons_skipped (env : Env) (baseUrl basePath : Str) (route : Route)
    (rest : List Route) (context : Context) (sent : List ReqOption)
    (h : (runStep env baseUrl basePath sent context route).outcome = .skipped) :
    eachSeries env baseUrl basePath (route :: rest) context sent
      = eachSeries env baseUrl basePath rest
          (runStep env baseUrl basePath sent context route).context
          (sent ++ (runStep env baseUrl basePath sent context route).sent.toList) := by
  rw [eachSeries, h]

theorem eachSeries_cons_passed (env : Env) (baseUrl basePath : Str) (route : Route)
    (rest : List Route) (context : Context) (sent : List ReqOption)
    (h : (runStep env baseUrl basePath sent context route).outcome = .passed) :
    eachSeries env baseUrl basePath (route :: rest) context sent
      = eachSeries env baseUrl basePath rest
          (runStep env baseUrl basePath sent context route).context
          (sent ++ (runStep env baseUrl basePath sent context route).sent.toList) := by
  rw [eachSeries, h]

theorem eachSeries_cons_failed (env : Env) (baseUrl basePath : Str) (route : Route)
    (rest : List Route) (context : Context) (sent : List ReqOption) (e : JsErr)
    (h : (runStep env baseUrl basePath sent context route).outcome = .failed e) :
    eachSeries env baseUrl basePath (route :: rest) context sent
      = ⟨.failure e, sent ++ (runStep env baseUrl basePath sent context route).sent.toList,
          (runStep env baseUrl basePath sent context route).context⟩ := by
  rw [eachSeries, h]

theorem eachSeries_cons_crashed (env : Env) (baseUrl basePath : Str) (route : Route)
    (rest : List Route) (context : Context) (sent : List ReqOption) (e : JsErr)
    (h : (runStep env baseUrl basePath sent context route).outcome = .crashed e) :
    eachSeries env baseUrl basePath (route :: rest) context sent
      = ⟨.crashed e, sent ++ (runStep env baseUrl basePath sent context route).sent.toList,
          (runStep env baseUrl basePath sent context route).context⟩ := by
  rw [eachSeries, h]

theorem eachSeries_append (env : Env) (baseUrl basePath : Str) (pre rest : List Route)
    (context : Context) (sent : List ReqOption)
    (h : (eachSeries env baseUrl basePath pre context sent).exit = .success) :
    eachSeries env baseUrl basePath (pre ++ rest) context sent
      = eachSeries env baseUrl basePath rest
          (eachSeries env baseUrl basePath pre context sent).context
          (eachSeries env baseUrl basePath pre context sent).sent := by
  induction pre generalizing context sent with
  | nil => rfl
  | cons route pre ih =>
    rw [List.cons_append]
    cases ho : (runStep env baseUrl basePath sent context route).outcome with
    | skipped =>
      rw [eachSeries_cons_skipped _ _ _ _ _ _ _ ho] at h ⊢
      rw [eachSeries_cons_skipped _ _ _ _ _ _ _ ho]
      exact ih _ _ h
    | passed =>
      rw [eachSeries_cons_passed _ _ _ _ _ _ _ ho] at h ⊢
      rw [eachSeries_cons_passed _ _ _ _ _ _ _ ho]
      exact ih _ _ h
    | failed e => rw [eachSeries_cons_failed _ _ _ _ _ _ _ e ho] at h; simp at h
    | crashed e => rw [eachSeries_cons_crashed _ _ _ _ _ _ _ e ho] at h; simp at h

/-- C8: when every route before a route ends without an error and the step of
that route ends with `done(err)`, the run ends in failure with that error, and
the descriptors handed to the client are those of the routes before it and its
own and no other; the routes that follow make no difference to the run. -/
theorem first_failure_halts (env : Env) (baseUrl basePath : Str) (pre post : List Route)
    (route : Route) (context : Context) (sent : List ReqOption) (err : JsErr)
    (hpre : (eachSeries env baseUrl basePath pre context sent).exit = .success)
    (hfail : (runStep env baseUrl basePath (eachSeries env baseUrl basePath pre context sent).sent
      (eachSeries env baseUrl basePath pre context sent).context route).outcome = .failed err) :
    eachSeries env baseUrl basePath (pre ++ route :: post) context sent
      = ⟨.failure err,
          (eachSeries env baseUrl basePath pre context sent).sent ++
            (runStep env baseUrl basePath (eachSeries env baseUrl basePath pre context sent).sent
              (eachSeries env baseUrl basePath pre context sent).context route).sent.toList,
          (runStep env baseUrl basePath (eachSeries env baseUrl basePath pre context sent).sent
            (eachSeries env baseUrl basePath pre context sent).context route).context⟩
    ∧ ∀ other : List Route,
        eachSeries env baseUrl basePath (pre ++ route :: other) context sent
          = eachSeries env baseUrl basePath (pre ++ route :: post) context sent := by
  have key : ∀ rest : List Route,
      eachSeries env baseUrl basePath (pre ++ route :: rest) context sent
        = ⟨.failure err,
            (eachSeries env baseUrl basePath pre context sent).sent ++
              (runStep env baseUrl basePath (eachSeries env baseUrl basePath pre context sent).sent
                (eachSeries env baseUrl basePath pre context sent).context route).sent.toList,
            (runStep env baseUrl basePath (eachSeries env baseUrl basePath pre context sent).sent
              (eachSeries env baseUrl basePath pre context sent).context route).context⟩ := by
    intro rest
    rw [eachSeries_append env baseUrl basePath pre (route :: rest) context sent hpre]
    exact eachSeries_cons_failed _ _ _ _ _ _ _ err hfail
  exact ⟨key post, fun other => by rw [key other, key post]⟩

/-- C8, witness: of the routes A, B and C, where B expects the status 201 and
every answer has the status 200, the run ends with the error of B after two
requests. -/
theorem first_failure_halts_witness :
    (eachSeries okEnv (stripTrailingSlash demoUrl) "api".toList [routeA] Context.empty []).exit
      = .success
    ∧ (eachSeries okEnv (stripTrailingSlash demoUrl) "api".toList ([routeA] ++ routeB :: [routeC])
        Context.empty []).exit = .failure errorOfB
    ∧ ((eachSeries okEnv (stripTrailingSlash demoUrl) "api".toList ([routeA] ++ routeB :: [routeC])
        Context.empty []).sent.map fun r => r.url)
      = ["http://localhost:3000/api/a".toList, "http://localhost:3000/api/b".toList] := by
  have h := (first_failure_halts okEnv (stripTrailingSlash demoUrl) "api".toList [routeA]
    [routeC] routeB Context.empty [] errorOfB (by decide) (by decide)).1
  refine ⟨by decide, ?_, ?_⟩
  · rw [h]
  · rw [h]; decide

/-! ## C9: the result of the run -/

theorem eachSeries_success_iff (env : Env) (baseUrl basePath : Str) (routes : List Route)
    (context : Context) (sent : List ReqOption) :
    (eachSeries env baseUrl basePath routes context sent).exit = .success
      ↔ allComplete env baseUrl basePath routes context sent := by
  induction routes generalizing context sent with
  | nil => simp [eachSeries, allComplete]
  | cons route rest ih =>
    cases ho : (runStep env baseUrl basePath sent context route).outcome with
    | skipped =>
      rw [eachSeries_cons_skipped _ _ _ _ _ _ _ ho, ih]
      simp [allComplete, ho]
    | passed =>
      rw [eachSeries_cons_passed _ _ _ _ _ _ _ ho, ih]
      simp [allComplete, ho]
    | failed e =>
      rw [eachSeries_cons_failed _ _ _ _ _ _ _ e ho]
      simp [allComplete, ho]
    | crashed e =>
      rw [eachSeries_cons_crashed _ _ _ _ _ _ _ e ho]
      simp [allComplete, ho]

theorem exit_status_zero_iff (x : Exit) : x.status = some 0 ↔ x = .success := by
  cases x <;> simp [Exit.status]

/-- The part of the run result that holds: a run in which no exception leaves
an iteratee ends in success, with the exit status 0, exactly when every route,
taken in list order from the context its predecessors left, is skipped or
completes its request, its validation and its extraction without an error;
otherwise it ends in failure, with the exit status 1. -/
theorem run_result (env : Env) (baseUrl basePath : Str) (routes : List Route)
    (context : Context) (sent : List ReqOption)
    (hdone : ∀ e, (eachSeries env baseUrl basePath routes context sent).exit ≠ .crashed e) :
    ((eachSeries env baseUrl basePath routes context sent).exit = .success
      ↔ allComplete env baseUrl basePath routes context sent)
    ∧ ((eachSeries env baseUrl basePath routes context sent).exit.status = some 0
      ↔ allComplete env baseUrl basePath routes context sent)
    ∧ (¬ allComplete env baseUrl basePath routes context sent →
      ∃ e, (eachSeries env baseUrl basePath routes context sent).exit = .failure e
        ∧ (eachSeries env baseUrl basePath routes context sent).exit.status = some 1) := by
  have hiff := eachSeries_success_iff env baseUrl basePath routes context sent
  refine ⟨hiff, ?_, ?_⟩
  · rw [exit_status_zero_iff]; exact hiff
  · intro hnot
    cases hx : (eachSeries env baseUrl basePath routes context sent).exit with
    | success => exact absurd (hiff.mp hx) hnot
    | failure e => exact ⟨e, rfl, rfl⟩
    | crashed e => exact absurd hx (hdone e)

/-- The run of the routes A, B and C under a client that always answers 200:
B expects 201, so the run does not complete and ends in failure with the
status 1. -/
theorem run_result_witness :
    ((eachSeries okEnv (stripTrailingSlash demoUrl) "api".toList [routeA, routeB, routeC]
        Context.empty []).exit = .success
      ↔ allComplete okEnv (stripTrailingSlash demoUrl) "api".toList [routeA, routeB, routeC]
        Context.empty [])
    ∧ ((eachSeries okEnv (stripTrailingSlash demoUrl) "api".toList [routeA, routeB, routeC]
        Context.empty []).exit.status = some 0
      ↔ allComplete okEnv (stripTrailingSlash demoUrl) "api".toList [routeA, routeB, routeC]
        Context.empty [])
    ∧ (¬ allComplete okEnv (stripTrailingSlash demoUrl) "api".toList [routeA, routeB, routeC]
        Context.empty [] →
      ∃ e, (eachSeries okEnv (stripTrailingSlash demoUrl) "api".toList [routeA, routeB, routeC]
          Context.empty []).exit = .failure e
        ∧ (eachSeries okEnv (stripTrailingSlash demoUrl) "api".toList [routeA, routeB, routeC]
          Context.empty []).exit.status = some 1) :=
  run_result okEnv (stripTrailingSlash demoUrl) "api".toList [routeA, routeB, routeC]
    Context.empty [] (by
      have h : (eachSeries okEnv (stripTrailingSlash demoUrl) "api".toList
          [routeA, routeB, routeC] Context.empty []).exit = .failure errorOfB := by decide
      intro e he
      rw [h] at he
      exact absurd he (by simp))

/-- C9, defect of the code: the route list whose first route registers the
path `id` under the name `hasOwnProperty` and whose second route has the url
`users/${id}`, with the answer 200 and the body `{"id": 5}`.  The first step
passes and sends its request; the template resolution of the second step
raises a `TypeError` that leaves the iteratee, so the second route does not
complete, and the run ends neither in success with the exit status 0 nor in
failure with the exit status 1: the final callback is never given the error
and `process.exit` is not reached. -/
theorem crashed_run_reports_nothing :
    (runStep (demoEnv [.ok (plainResponse 200 (.obj [("id".toList, .num 5)]))])
        (stripTrailingSlash demoUrl) "api".toList [] Context.empty routeShadowing).outcome
      = .passed
    ∧ (runStep (demoEnv [.ok (plainResponse 200 (.obj [("id".toList, .num 5)]))])
        (stripTrailingSlash demoUrl) "api".toList [] Context.empty routeShadowing).context
      = shadowedContext
    ∧ ¬ allComplete (demoEnv [.ok (plainResponse 200 (.obj [("id".toList, .num 5)]))])
        (stripTrailingSlash demoUrl) "api".toList [routeShadowing, routeWithPlaceholder]
        Context.empty []
    ∧ (loopbackModelTester (demoEnv [.ok (plainResponse 200 (.obj [("id".toList, .num 5)]))])
        demoUrl [routeShadowing, routeWithPlaceholder] none).exit = .crashed notAFunction
    ∧ (loopbackModelTester (demoEnv [.ok (plainResponse 200 (.obj [("id".toList, .num 5)]))])
        demoUrl [routeShadowing, routeWithPlaceholder] none).exit.status = none
    ∧ (loopbackModelTester (demoEnv [.ok (plainResponse 200 (.obj [("id".toList, .num 5)]))])
        demoUrl [routeShadowing, routeWithPlaceholder] none).exit.status ≠ some 0
    ∧ (loopbackModelTester (demoEnv [.ok (plainResponse 200 (.obj [("id".toList, .num 5)]))])
        demoUrl [routeShadowing, routeWithPlaceholder] none).exit.status ≠ some 1
    ∧ (loopbackModelTester (demoEnv [.ok (plainResponse 200 (.obj [("id".toList, .num 5)]))])
        demoUrl [routeShadowing, routeWithPlaceholder] none).sent.length = 1 := by
  have hexit : (eachSeries (demoEnv [.ok (plainResponse 200 (.obj [("id".toList, .num 5)]))])
      (stripTrailingSlash demoUrl) "api".toList [routeShadowing, routeWithPlaceholder]
      Context.empty []).exit = .crashed notAFunction := by decide
  refine ⟨by decide, by decide, ?_, by decide, by decide, by decide, by decide, by decide⟩
  intro hall
  have hs := (eachSeries_success_iff _ _ _ _ _ _).mpr hall
  rw [hexit] at hs
  cases hs

/-! ## C10: a skipped route -/

/-- C10: the step of a route with `skip` true sends nothing and leaves the
route and the context as they are, and the series goes on with the next route
from the same context and the same descriptors sent. -/
theorem skip_is_noop (env : Env) (baseUrl basePath : Str) (route : Route) (rest : List Route)
    (context : Context) (sent : List ReqOption) (h : route.skip = true) :
    runStep env baseUrl basePath sent context route = ⟨.skipped, route, context, none⟩
    ∧ eachSeries env baseUrl basePath (route :: rest) context sent
      = eachSeries env baseUrl basePath rest context sent := by
  have hstep : runStep env baseUrl basePath sent context route = ⟨.skipped, route, context, none⟩ := by
    simp [runStep, h]
  refine ⟨hstep, ?_⟩
  rw [eachSeries_cons_skipped _ _ _ _ _ _ _ (by rw [hstep]), hstep]
  simp

/-- C10, witness: a skipped route before the route A leaves the run of A as it is. -/
theorem skip_is_noop_witness :
    ({ routeB with skip := true } : Route).skip = true
    ∧ runStep okEnv (stripTrailingSlash demoUrl) "api".toList [] demoContext
        { routeB with skip := true }
      = ⟨.skipped, { routeB with skip := true }, demoContext, none⟩
    ∧ eachSeries okEnv (stripTrailingSlash demoUrl) "api".toList
        ({ routeB with skip := true } :: [routeA]) demoContext []
      = eachSeries okEnv (stripTrailingSlash demoUrl) "api".toList [routeA] demoContext [] :=
  ⟨rfl, skip_is_noop okEnv (stripTrailingSlash demoUrl) "api".toList { routeB with skip := true }
    [routeA] demoContext [] rfl⟩

/-! ## C11: the decision of the status-code check -/

theorem expectedStatus_eq (route : Route) :
    (withDefaultStatus (route.expect.getD emptyExpect)).statusCode.getD 200
      = expectedStatus route := by
  unfold expectedStatus withDefaultStatus emptyExpect
  cases route.expect with
  | none => rfl
  | some expect => cases h : expect.statusCode <;> simp [h]

/-- C11: the status assertion of a step, made against `expect.statusCode`
after the default of lines 81-83, passes exactly when the status code of the
response equals the status code the route expects, which is 200 when the
route has no `expect` or no `expect.statusCode`; when the codes differ the
validation of the step ends with the error of that assertion, and a
validation that passes has equal codes.  A response with the code 200 passes
against the expected code 200, one with the code 404 does not. -/
theorem status_check_decision (env : Env) (route : Route) (resp : Response) :
    (checkStatusCode env ((withDefaultStatus (route.expect.getD emptyExpect)).statusCode.getD 200)
        resp.statusCode = .ok ()
      ↔ resp.statusCode = expectedStatus route)
    ∧ (resp.statusCode ≠ expectedStatus route →
      validate env (withDefaultStatus (route.expect.getD emptyExpect)) resp
        = .error ⟨.assertionError, statusCodeMessage env resp.statusCode, none⟩)
    ∧ (validate env (withDefaultStatus (route.expect.getD emptyExpect)) resp = .ok () →
      resp.statusCode = expectedStatus route)
    ∧ expectedStatus routeExpecting200 = 200
    ∧ expectedStatus (plainRoute "A".toList "a".toList) = 200
    ∧ checkStatusCode env 200 200 = .ok ()
    ∧ checkStatusCode env 200 404 ≠ .ok () := by
  have hexp := expectedStatus_eq route
  refine ⟨?_, ?_, ?_, by decide, by decide, by simp [checkStatusCode], by simp [checkStatusCode]⟩
  · rw [hexp]
    by_cases h : resp.statusCode = expectedStatus route <;> simp [checkStatusCode, h]
  · intro h
    unfold validate
    rw [hexp]
    simp [checkStatusCode, h]
  · intro hv
    by_contra h
    unfold validate at hv
    rw [hexp] at hv
    simp [checkStatusCode, h] at hv

/-! ## C12: the decision of the properties check -/

theorem checkProperties_ok_iff (env : Env) (body : JsVal) (properties : List (Str × Str)) :
    checkProperties env body properties = .ok ()
      ↔ ∀ p ∈ properties, env.has body p.1 = true ∧
          (toLowerCase p.2 = "any".toList
            ∨ toLowerCase (is (env.get body p.1)) = toLowerCase p.2) := by
  induction properties with
  | nil => simp [checkProperties]
  | cons p rest ih =>
    obtain ⟨key, ty⟩ := p
    rw [checkProperties, List.forall_mem_cons]
    by_cases hhas : env.has body key = false
    · rw [if_pos hhas]
      constructor
      · intro h; cases h
      · intro h
        rw [h.1.1] at hhas
        cases hhas
    · have hhas2 : env.has body key = true := by simpa using hhas
      rw [if_neg hhas]
      by_cases hany : toLowerCase ty = "any".toList
      · rw [if_pos hany, ih]
        exact ⟨fun h => ⟨⟨hhas2, Or.inl hany⟩, h⟩, fun h => h.2⟩
      · rw [if_neg hany]
        by_cases hty : toLowerCase (is (env.get body key)) = toLowerCase ty
        · rw [if_neg (by simpa using hty), ih]
          exact ⟨fun h => ⟨⟨hhas2, Or.inr hty⟩, h⟩, fun h => h.2⟩
        · rw [if_pos hty]
          constructor
          · intro h; cases h
          · intro h
            rcases h.1.2 with h1 | h1
            · exact absurd h1 hany
            · exact absurd h1 hty

theorem checkProperties_error_kind (env : Env) (body : JsVal) (properties : List (Str × Str))
    (e : JsErr) (h : checkProperties env body properties = .error e) :
    e.kind ≠ .assertionError := by
  induction properties with
  | nil => simp [checkProperties] at h
  | cons p rest ih =>
    obtain ⟨key, ty⟩ := p
    rw [checkProperties] at h
    split at h
    · cases h; simp
    · split at h
      · exact ih h
      · split at h
        · cases h; simp
        · exact ih h

/-- C12: for a response body whose type tag is object, an expected body type
that is `object` up to case and a mapping `expect.properties`, the check of
lines 124-146 passes exactly when every declared key resolves in the body and
its expected type is `any` up to case or equals, up to case, the type tag of
the resolved value; a key that does not resolve fails the check whatever its
expected type, `any` included. -/
theorem properties_check_decision (env : Env) (expect : Expect) (body : JsVal)
    (bodyType : Str) (properties : List (Str × Str))
    (hbt : expect.bodyType = some bodyType) (hobj : toLowerCase bodyType = "object".toList)
    (hbody : toLowerCase (is body) = "object".toList)
    (hprops : expect.properties = some properties) :
    (checkBodyType env expect body = .ok ()
      ↔ ∀ p ∈ properties, env.has body p.1 = true ∧
          (toLowerCase p.2 = "any".toList
            ∨ toLowerCase (is (env.get body p.1)) = toLowerCase p.2))
    ∧ ∀ (key ty : Str) (rest : List (Str × Str)), env.has body key = false →
        checkProperties env body ((key, ty) :: rest)
          = .error ⟨.error, "Missing body response key ".toList ++ key, none⟩ := by
  constructor
  · unfold checkBodyType
    rw [hbt]
    simp only [hbody, hobj, ne_eq, not_true_eq_false, if_false, if_true, hprops]
    exact checkProperties_ok_iff env body properties
  · intro key ty rest hhas
    rw [checkProperties, if_pos hhas]

/-- C12, witness: the body `{"user": {"id": 5}}` passes the declared property
`user.id` of type `number` and fails it with the type `string`; the missing
key `user.name` fails with the type `any`. -/
theorem properties_check_decision_witness :
    ((checkBodyType (demoEnv []) (expectProperty "user.id".toList "number".toList) userBody
        = .ok ()
      ↔ ∀ p ∈ [("user.id".toList, "number".toList)], (demoEnv []).has userBody p.1 = true ∧
          (toLowerCase p.2 = "any".toList
            ∨ toLowerCase (is ((demoEnv []).get userBody p.1)) = toLowerCase p.2))
    ∧ ∀ (key ty : Str) (rest : List (Str × Str)), (demoEnv []).has userBody key = false →
        checkProperties (demoEnv []) userBody ((key, ty) :: rest)
          = .error ⟨.error, "Missing body response key ".toList ++ key, none⟩)
    ∧ checkBodyType (demoEnv []) (expectProperty "user.id".toList "number".toList) userBody
      = .ok ()
    ∧ checkBodyType (demoEnv []) (expectProperty "user.id".toList "string".toList) userBody
      ≠ .ok ()
    ∧ checkBodyType (demoEnv []) (expectProperty "user.name".toList "any".toList) userBody
      = .error ⟨.error, "Missing body response key user.name".toList, none⟩ :=
  ⟨properties_check_decision (demoEnv []) (expectProperty "user.id".toList "number".toList)
      userBody "object".toList [("user.id".toList, "number".toList)] rfl (by decide) (by decide)
      rfl,
    by decide, by decide, by decide⟩

/-! ## C13: the decision of the body-type check -/

/-- C13: for a string `expect.bodyType`, the assertion of line 127 fails, with
its error, exactly when the lower-cased type tag of the body differs from the
lower-cased expected tag; without declared properties the whole check passes
exactly when the two are equal; and without `expect.bodyType` the check is
not applied. -/
theorem body_type_check_decision (env : Env) (expect : Expect) (body : JsVal) (bodyType : Str)
    (hbt : expect.bodyType = some bodyType) :
    (checkBodyType env expect body = .error (bodyTypeError env bodyType body)
      ↔ toLowerCase (is body) ≠ toLowerCase bodyType)
    ∧ (checkBodyType env { expect with properties := none } body = .ok ()
      ↔ toLowerCase (is body) = toLowerCase bodyType)
    ∧ checkBodyType env { expect with bodyType := none } body = .ok () := by
  refine ⟨?_, ?_, ?_⟩
  · unfold checkBodyType
    rw [hbt]
    by_cases h : toLowerCase (is body) = toLowerCase bodyType
    · simp only [h, ne_eq, not_true_eq_false, if_false, iff_false]
      split
      · split
        · intro he
          exact checkProperties_error_kind env body _ _ he rfl
        · simp
      · simp
    · simp [h, bodyTypeError]
  · unfold checkBodyType
    simp only [hbt]
    by_cases h : toLowerCase (is body) = toLowerCase bodyType <;> simp [h]
  · simp [checkBodyType]

/-- C13, witness: the body `{"a": 1}` passes the expected body types `object`
and `Object`, and the body `[1, 2]` fails the expected body type `object`. -/
theorem body_type_check_decision_witness :
    ((checkBodyType (demoEnv []) (expectBodyType "Object".toList) (.obj [("a".toList, .num 1)])
        = .error (bodyTypeError (demoEnv []) "Object".toList (.obj [("a".toList, .num 1)]))
      ↔ toLowerCase (is (.obj [("a".toList, .num 1)])) ≠ toLowerCase "Object".toList)
    ∧ (checkBodyType (demoEnv []) { expectBodyType "Object".toList with properties := none }
        (.obj [("a".toList, .num 1)]) = .ok ()
      ↔ toLowerCase (is (.obj [("a".toList, .num 1)])) = toLowerCase "Object".toList)
    ∧ checkBodyType (demoEnv []) { expectBodyType "Object".toList with bodyType := none }
        (.obj [("a".toList, .num 1)]) = .ok ())
    ∧ checkBodyType (demoEnv []) (expectBodyType "Object".toList) (.obj [("a".toList, .num 1)])
      = .ok ()
    ∧ checkBodyType (demoEnv []) (expectBodyType "object".toList) (.obj [("a".toList, .num 1)])
      = .ok ()
    ∧ checkBodyType (demoEnv []) (expectBodyType "object".toList) (.arr [.num 1, .num 2])
      = .error ⟨.assertionError,
          ("Invalid type for the returned response body. Should be object" ++
            " but detected as array").toList, none⟩ :=
  ⟨body_type_check_decision (demoEnv []) (expectBodyType "Object".toList)
      (.obj [("a".toList, .num 1)]) "Object".toList rfl,
    by decide, by decide, by decide⟩

/-! ## C14: when the extraction of variables fails -/

theorem extractVariables_absent_required (env : Env) (body : JsVal) (p : Str) (o : VarOptions)
    (rest : List (Str × VarOptions)) (context : Context)
    (hhas : env.has body p = false) (hreq : o.required = .bool true) :
    extractVariables env body ((p, o) :: rest) context
      = (context, some (missingVariable env p)) := by
  rw [extractVariables]
  simp [hhas, hreq]

theorem extractVariables_absent_optional (env : Env) (body : JsVal) (p : Str) (o : VarOptions)
    (rest : List (Str × VarOptions)) (context : Context)
    (hhas : env.has body p = false) (hreq : o.required ≠ .bool true) :
    extractVariables env body ((p, o) :: rest) context
      = extractVariables env body rest context := by
  rw [extractVariables]
  simp only [hhas, Bool.false_eq_true, if_false]

theorem extractVariables_present (env : Env) (body : JsVal) (p : Str) (o : VarOptions)
    (rest : List (Str × VarOptions)) (context : Context) (hhas : env.has body p = true) :
    extractVariables env body ((p, o) :: rest) context
      = if registerVar o = true ∧ jsToString (env.get body p) = none then
          (if registerVar o = true then context.set (finalVarName p o) (env.get body p)
            else context, some noPrimitive)
        else if o.value = .undefined ∨ strictEq (env.get body p) o.value = true then
          extractVariables env body rest
            (if registerVar o = true then context.set (finalVarName p o) (env.get body p)
              else context)
        else
          (if registerVar o = true then context.set (finalVarName p o) (env.get body p)
            else context, some (unexpectedValue env p o.value (env.get body p))) := by
  rw [extractVariables]
  simp only [hhas, if_true]
  split
  · rfl
  · cases hv : o.value <;> simp

theorem exists_mem_cons_iff {α : Type} (P : α → Prop) (a : α) (l : List α) :
    (∃ e ∈ a :: l, P e) ↔ P a ∨ ∃ e ∈ l, P e := by
  constructor
  · rintro ⟨e, he, hp⟩
    rcases List.mem_cons.mp he with h | h
    · left; rw [← h]; exact hp
    · right; exact ⟨e, h, hp⟩
  · rintro (h | ⟨e, he, hp⟩)
    · exact ⟨a, List.mem_cons_self _ _, h⟩
    · exact ⟨e, List.mem_cons_of_mem _ he, hp⟩

/-- What the extractor does when every registered value has a string
representation: the extraction fails exactly when some entry meets the
failure condition. -/
theorem extraction_fails_iff (env : Env) (body : JsVal) (vars : List (Str × VarOptions))
    (context : Context)
    (hstr : ∀ e ∈ vars, env.has body e.1 = true → registerVar e.2 = true →
      jsToString (env.get body e.1) ≠ none) :
    (extractVariables env body vars context).2 ≠ none ↔ ∃ e ∈ vars, entryFails env body e := by
  induction vars generalizing context with
  | nil => simp [extractVariables]
  | cons entry rest ih =>
    obtain ⟨p, o⟩ := entry
    have hrest : ∀ e ∈ rest, env.has body e.1 = true → registerVar e.2 = true →
        jsToString (env.get body e.1) ≠ none :=
      fun e he => hstr e (List.mem_cons_of_mem _ he)
    rw [exists_mem_cons_iff]
    by_cases hhas : env.has body p = true
    · have hlog : ¬ (registerVar o = true ∧ jsToString (env.get body p) = none) :=
        fun h => hstr (p, o) (List.mem_cons_self _ _) hhas h.1 h.2
      rw [extractVariables_present env body p o rest context hhas, if_neg hlog]
      by_cases hv : o.value = .undefined ∨ strictEq (env.get body p) o.value = true
      · rw [if_pos hv, ih _ hrest]
        constructor
        · exact fun h => Or.inr h
        · rintro (h | h)
          · rcases h with ⟨_, h2, h3⟩ | ⟨h1, _⟩
            · rcases hv with hv | hv
              · exact absurd hv h2
              · rw [hv] at h3; cases h3
            · rw [hhas] at h1; cases h1
          · exact h
      · rw [if_neg hv]
        constructor
        · intro _
          left; left
          refine ⟨hhas, fun h => hv (Or.inl h), ?_⟩
          cases hs : strictEq (env.get body p) o.value with
          | true => exact absurd (Or.inr hs) hv
          | false => rfl
        · intro _; simp
    · have hhas2 : env.has body p = false := by simpa using hhas
      by_cases hreq : o.required = .bool true
      · rw [extractVariables_absent_required env body p o rest context hhas2 hreq]
        constructor
        · intro _; left; right; exact ⟨hhas2, hreq⟩
        · intro _; simp
      · rw [extractVariables_absent_optional env body p o rest context hhas2 hreq, ih _ hrest]
        constructor
        · exact fun h => Or.inr h
        · rintro (h | h)
          · rcases h with ⟨h1, _, _⟩ | ⟨_, h2⟩
            · rw [hhas2] at h1; cases h1
            · exact absurd h2 hreq
          · exact h

/-- C14, defect of the code: the body `{"profile": {"toString": "x"}}` has the
path `profile`, and the entry `profile` without options meets neither failure
condition (its path resolves and it has no `value`), yet the step fails: the
log of line 174 stringifies the registered value, which has no primitive
value, and raises a `TypeError` after the assignment to the context. -/
theorem log_of_registered_value_fails :
    lodashHas bodyWithToString "profile".toList = true
    ∧ ¬ (∃ e ∈ [("profile".toList, noOptions)], entryFails (demoEnv []) bodyWithToString e)
    ∧ extractVariables (demoEnv []) bodyWithToString [("profile".toList, noOptions)] Context.empty
      = (⟨[("profile".toList, .obj [("toString".toList, .str "x".toList)])], .objectPrototype⟩,
          some noPrimitive)
    ∧ (runStep (demoEnv [.ok (plainResponse 200 bodyWithToString)]) (stripTrailingSlash demoUrl)
        "api".toList [] Context.empty routeProfile).outcome = .failed noPrimitive := by
  decide

/-! ## C15: what the extraction of variables assigns -/

theorem set_lookup_ne (context : Context) (n k : Str) (v : JsVal) (h : n ≠ k) :
    lookup k (context.set n v).own = lookup k context.own := by
  unfold Context.set
  split
  · split <;> rfl
  · exact lookup_assign_ne n k v context.own (Ne.symm h)

theorem hasKey_assign {α : Type} (n k : Str) (v : α) (l : List (Str × α))
    (h : hasKey k l = true) : hasKey k (assign n v l) = true := by
  by_cases hk : k = n
  · subst hk; simp [hasKey, lookup_assign]
  · simp only [hasKey] at h ⊢
    rw [lookup_assign_ne n k v l hk]
    exact h

theorem set_hasKey (context : Context) (n k : Str) (v : JsVal)
    (h : hasKey k context.own = true) : hasKey k (context.set n v).own = true := by
  unfold Context.set
  split
  · split <;> exact h
  · exact hasKey_assign n k v context.own h

theorem assignAll_lookup_ne (regs : List (Str × JsVal)) (context : Context) (k : Str)
    (h : ∀ r ∈ regs, r.1 ≠ k) :
    lookup k (assignAll context regs).own = lookup k context.own := by
  induction regs generalizing context with
  | nil => rfl
  | cons r rest ih =>
    show lookup k (assignAll (context.set r.1 r.2) rest).own = lookup k context.own
    rw [ih _ (fun q hq => h q (List.mem_cons_of_mem _ hq)),
      set_lookup_ne context r.1 k r.2 (h r (List.mem_cons_self _ _))]

theorem assignAll_hasKey (regs : List (Str × JsVal)) (context : Context) (k : Str)
    (h : hasKey k context.own = true) : hasKey k (assignAll context regs).own = true := by
  induction regs generalizing context with
  | nil => exact h
  | cons r rest ih => exact ih _ (set_hasKey context r.1 k r.2 h)

theorem assignAll_append (context : Context) (xs ys : List (Str × JsVal)) :
    assignAll context (xs ++ ys) = assignAll (assignAll context xs) ys := by
  simp [assignAll, List.foldl_append]

theorem extractVariables_passed (env : Env) (body : JsVal) (vars : List (Str × VarOptions))
    (context : Context) (h : (extractVariables env body vars context).2 = none) :
    (extractVariables env body vars context).1
      = assignAll context (registrations env body vars) := by
  induction vars generalizing context with
  | nil => rfl
  | cons entry rest ih =>
    obtain ⟨p, o⟩ := entry
    by_cases hhas : env.has body p = true
    · rw [extractVariables_present env body p o rest context hhas] at h ⊢
      by_cases hlog : registerVar o = true ∧ jsToString (env.get body p) = none
      · rw [if_pos hlog] at h; cases h
      · rw [if_neg hlog] at h ⊢
        by_cases hv : o.value = .undefined ∨ strictEq (env.get body p) o.value = true
        · rw [if_pos hv] at h ⊢
          rw [ih _ h]
          by_cases hr : registerVar o = true
          · simp [registrations, hhas, hr, assignAll]
          · simp [registrations, hhas, hr, assignAll]
        · rw [if_neg hv] at h; cases h
    · have hhas2 : env.has body p = false := by simpa using hhas
      by_cases hreq : o.required = .bool true
      · rw [extractVariables_absent_required env body p o rest context hhas2 hreq] at h
        cases h
      · rw [extractVariables_absent_optional env body p o rest context hhas2 hreq] at h ⊢
        rw [ih _ h]
        simp [registrations, hhas2]

theorem registerVar_eq_true_iff (o : VarOptions) :
    registerVar o = true ↔ o.register ≠ .bool false := by
  unfold registerVar
  cases h : o.register with
  | bool b => cases b <;> simp
  | _ => simp

/-! ## The stages of a step -/

theorem runStep_skip (env : Env) (baseUrl basePath : Str) (sent : List ReqOption)
    (context : Context) (route : Route) (hskip : route.skip = true) :
    runStep env baseUrl basePath sent context route = ⟨.skipped, route, context, none⟩ := by
  simp [runStep, hskip]

theorem runStep_url_error (env : Env) (baseUrl basePath : Str) (sent : List ReqOption)
    (context : Context) (route : Route) (e : JsErr) (hskip : route.skip = false)
    (hurl : resolveUrl context route.url = .error e) :
    runStep env baseUrl basePath sent context route = ⟨.crashed e, route, context, none⟩ := by
  unfold runStep
  rw [if_neg (by rw [hskip]; simp)]
  simp only [hurl]

theorem runStep_header_error (env : Env) (baseUrl basePath : Str) (sent : List ReqOption)
    (context : Context) (route : Route) (url : Str) (e : JsErr) (hskip : route.skip = false)
    (hurl : resolveUrl context route.url = .ok url)
    (hhead : (resolveHeaders context route.headers).2 = some e) :
    runStep env baseUrl basePath sent context route
      = ⟨.crashed e, hydrated context route url, context, none⟩ := by
  unfold runStep
  rw [if_neg (by rw [hskip]; simp)]
  simp only [hurl, hhead, hydrated]

theorem runStep_file_error (env : Env) (baseUrl basePath : Str) (sent : List ReqOption)
    (context : Context) (route : Route) (url : Str) (e : JsErr) (hskip : route.skip = false)
    (hurl : resolveUrl context route.url = .ok url)
    (hhead : (resolveHeaders context route.headers).2 = none)
    (hfile : attachFile env route.file (buildReqOption baseUrl basePath (hydrated context route url))
      = .error e) :
    runStep env baseUrl basePath sent context route
      = ⟨.failed e, { hydrated context route url with
          expect := route.expect.map withDefaultStatus }, context, none⟩ := by
  unfold hydrated at hfile
  unfold runStep
  rw [if_neg (by rw [hskip]; simp)]
  simp only [hurl, hhead, hfile, hydrated]

theorem runStep_request_error (env : Env) (baseUrl basePath : Str) (sent : List ReqOption)
    (context : Context) (route : Route) (url : Str) (req : ReqOption) (e : JsErr)
    (hskip : route.skip = false)
    (hurl : resolveUrl context route.url = .ok url)
    (hhead : (resolveHeaders context route.headers).2 = none)
    (hfile : attachFile env route.file (buildReqOption baseUrl basePath (hydrated context route url))
      = .ok req)
    (hreq : env.request sent req = .error e) :
    runStep env baseUrl basePath sent context route
      = ⟨.failed e, { hydrated context route url with
          expect := route.expect.map withDefaultStatus }, context, some req⟩ := by
  unfold hydrated at hfile
  unfold runStep
  rw [if_neg (by rw [hskip]; simp)]
  simp only [hurl, hhead, hfile, hreq, hydrated]

theorem runStep_response (env : Env) (baseUrl basePath : Str) (sent : List ReqOption)
    (context : Context) (route : Route) (url : Str) (req : ReqOption) (resp : Response)
    (hskip : route.skip = false)
    (hurl : resolveUrl context route.url = .ok url)
    (hhead : (resolveHeaders context route.headers).2 = none)
    (hfile : attachFile env route.file (buildReqOption baseUrl basePath (hydrated context route url))
      = .ok req)
    (hreq : env.request sent req = .ok resp) :
    runStep env baseUrl basePath sent context route
      = match validate env (withDefaultStatus (route.expect.getD emptyExpect)) resp with
        | .error e => ⟨.failed e, routeAfter context route url resp, context, some req⟩
        | .ok () =>
          match route.vars with
          | none => ⟨.passed, routeAfter context route url resp, context, some req⟩
          | some vars =>
            match (extractVariables env resp.body vars context).2 with
            | some e =>
              ⟨.failed e, routeAfter context route url resp,
                (extractVariables env resp.body vars context).1, some req⟩
            | none =>
              ⟨.passed, routeAfter context route url resp,
                (extractVariables env resp.body vars context).1, some req⟩ := by
  unfold hydrated at hfile
  unfold runStep
  rw [if_neg (by rw [hskip]; simp)]
  simp only [hurl, hhead, hfile, hreq, hydrated, routeAfter]

/-- Case analysis of a step by the stage at which it ends. -/
theorem runStep_elim (env : Env) (baseUrl basePath : Str) (sent : List ReqOption)
    (context : Context) (route : Route) (P : StepResult → Prop)
    (h1 : route.skip = true → P ⟨.skipped, route, context, none⟩)
    (h2 : ∀ e, route.skip = false → resolveUrl context route.url = .error e →
      P ⟨.crashed e, route, context, none⟩)
    (h3 : ∀ url e, route.skip = false → resolveUrl context route.url = .ok url →
      (resolveHeaders context route.headers).2 = some e →
      P ⟨.crashed e, hydrated context route url, context, none⟩)
    (h4 : ∀ url e, route.skip = false → resolveUrl context route.url = .ok url →
      (resolveHeaders context route.headers).2 = none →
      attachFile env route.file (buildReqOption baseUrl basePath (hydrated context route url))
        = .error e →
      P ⟨.failed e, { hydrated context route url with
          expect := route.expect.map withDefaultStatus }, context, none⟩)
    (h5 : ∀ url req e, route.skip = false → resolveUrl context route.url = .ok url →
      (resolveHeaders context route.headers).2 = none →
      attachFile env route.file (buildReqOption baseUrl basePath (hydrated context route url))
        = .ok req →
      env.request sent req = .error e →
      P ⟨.failed e, { hydrated context route url with
          expect := route.expect.map withDefaultStatus }, context, some req⟩)
    (h6 : ∀ url req resp, route.skip = false → resolveUrl context route.url = .ok url →
      (resolveHeaders context route.headers).2 = none →
      attachFile env route.file (buildReqOption baseUrl basePath (hydrated context route url))
        = .ok req →
      env.request sent req = .ok resp →
      P (match validate env (withDefaultStatus (route.expect.getD emptyExpect)) resp with
        | .error e => ⟨.failed e, routeAfter context route url resp, context, some req⟩
        | .ok () =>
          match route.vars with
          | none => ⟨.passed, routeAfter context route url resp, context, some req⟩
          | some vars =>
            match (extractVariables env resp.body vars context).2 with
            | some e =>
              ⟨.failed e, routeAfter context route url resp,
                (extractVariables env resp.body vars context).1, some req⟩
            | none =>
              ⟨.passed, routeAfter context route url resp,
                (extractVariables env resp.body vars context).1, some req⟩)) :
    P (runStep env baseUrl basePath sent context route) := by
  cases hskip : route.skip with
  | true => rw [runStep_skip _ _ _ _ _ _ hskip]; exact h1 hskip
  | false =>
    cases hurl : resolveUrl context route.url with
    | error e => rw [runStep_url_error _ _ _ _ _ _ e hskip hurl]; exact h2 e hskip hurl
    | ok url =>
      cases hhead : (resolveHeaders context route.headers).2 with
      | some e =>
        rw [runStep_header_error _ _ _ _ _ _ url e hskip hurl hhead]
        exact h3 url e hskip hurl hhead
      | none =>
        cases hfile : attachFile env route.file
            (buildReqOption baseUrl basePath (hydrated context route url)) with
        | error e =>
          rw [runStep_file_error _ _ _ _ _ _ url e hskip hurl hhead hfile]
          exact h4 url e hskip hurl hhead hfile
        | ok req =>
          cases hreq : env.request sent req with
          | error e =>
            rw [runStep_request_error _ _ _ _ _ _ url req e hskip hurl hhead hfile hreq]
            exact h5 url req e hskip hurl hhead hfile hreq
          | ok resp =>
            rw [runStep_response _ _ _ _ _ _ url req resp hskip hurl hhead hfile hreq]
            exact h6 url req resp hskip hurl hhead hfile hreq

/-- The context a passing step leaves is the one its extraction leaves: a step
that passes with the entries `vars` received a response on whose body the
extraction passed. -/
theorem runStep_passed (env : Env) (baseUrl basePath : Str) (sent : List ReqOption)
    (context : Context) (route : Route) (vars : List (Str × VarOptions))
    (hvars : route.vars = some vars)
    (h : (runStep env baseUrl basePath sent context route).outcome = .passed) :
    ∃ req resp, (runStep env baseUrl basePath sent context route).sent = some req
      ∧ env.request sent req = .ok resp
      ∧ (extractVariables env resp.body vars context).2 = none
      ∧ (runStep env baseUrl basePath sent context route).context
        = (extractVariables env resp.body vars context).1 := by
  revert h
  apply runStep_elim env baseUrl basePath sent context route
    (fun r => r.outcome = .passed → ∃ req resp, r.sent = some req
      ∧ env.request sent req = .ok resp
      ∧ (extractVariables env resp.body vars context).2 = none
      ∧ r.context = (extractVariables env resp.body vars context).1)
  · intro _ h; cases h
  · intro e _ _ h; cases h
  · intro url e _ _ _ h; cases h
  · intro url e _ _ _ _ h; cases h
  · intro url req e _ _ _ _ _ h; cases h
  · intro url req resp _ _ _ _ hreq
    rw [hvars]
    cases hval : validate env (withDefaultStatus (route.expect.getD emptyExpect)) resp with
    | error e => intro h; cases h
    | ok u =>
      cases u
      dsimp only
      cases hext : (extractVariables env resp.body vars context).2 with
      | some e => dsimp only; intro h; cases h
      | none => dsimp only; intro _; exact ⟨req, resp, rfl, hreq, hext, rfl⟩

theorem assignAll_last (context : Context) (before after : List (Str × JsVal)) (k : Str)
    (v : JsVal) (hafter : ∀ r ∈ after, r.1 ≠ k) (hk : k ≠ "__proto__".toList) :
    lookup k (assignAll context (before ++ (k, v) :: after)).own = some v := by
  rw [assignAll_append]
  show lookup k (assignAll ((assignAll context before).set k v) after).own = some v
  rw [assignAll_lookup_ne after _ k hafter, set_own _ k v hk]
  exact lookup_assign k v _

theorem registrations_cons_skip (env : Env) (body : JsVal) (entry : Str × VarOptions)
    (rest : List (Str × VarOptions))
    (h : env.has body entry.1 = false ∨ entry.2.register = .bool false) :
    registrations env body (entry :: rest) = registrations env body rest := by
  obtain ⟨p, o⟩ := entry
  rw [registrations, if_neg]
  rintro ⟨h1, h2⟩
  rcases h with h | h
  · rw [h1] at h; cases h
  · exact (registerVar_eq_true_iff o).mp h2 h

theorem registrations_cons_register (env : Env) (body : JsVal) (entry : Str × VarOptions)
    (rest : List (Str × VarOptions)) (h1 : env.has body entry.1 = true)
    (h2 : entry.2.register ≠ .bool false) :
    registrations env body (entry :: rest)
      = (finalVarName entry.1 entry.2, env.get body entry.1) :: registrations env body rest := by
  obtain ⟨p, o⟩ := entry
  rw [registrations, if_pos ⟨h1, (registerVar_eq_true_iff o).mpr h2⟩]

/-- C15, counterexample: the entries `a` and `b` both register under the name
`x`; for the body `{"a": 1, "b": 2}` the step passes and the context then
holds 2 under `x`, not the value 1 of the entry `a`.  And the entries written
as `{"1": ..., "0": ...}` are processed with the key `0` first: for the body
`["a", "b"]` the context ends with `b` under `x`, where the order of the
literal would end with `a`. -/
theorem earlier_registration_overwritten :
    lodashHas bodyPair "a".toList = true
    ∧ lodashGet bodyPair "a".toList = .num 1
    ∧ (runStep (demoEnv [.ok (plainResponse 200 bodyPair)]) (stripTrailingSlash demoUrl)
        "api".toList [] Context.empty routeSameName).outcome = .passed
    ∧ lookup "x".toList
        (runStep (demoEnv [.ok (plainResponse 200 bodyPair)]) (stripTrailingSlash demoUrl)
          "api".toList [] Context.empty routeSameName).context.own = some (.num 2)
    ∧ lookup "x".toList
        (runStep (demoEnv [.ok (plainResponse 200 bodyPair)]) (stripTrailingSlash demoUrl)
          "api".toList [] Context.empty routeSameName).context.own ≠ some (.num 1)
    ∧ objectKeysOrder [("1".toList, registerAs "x".toList), ("0".toList, registerAs "x".toList)]
      = [("0".toList, registerAs "x".toList), ("1".toList, registerAs "x".toList)]
    ∧ lookup "x".toList
        (extractVariables (demoEnv []) (.arr [.str "a".toList, .str "b".toList])
          (objectKeysOrder
            [("1".toList, registerAs "x".toList), ("0".toList, registerAs "x".toList)])
          Context.empty).1.own = some (.str "b".toList)
    ∧ lookup "x".toList
        (extractVariables (demoEnv []) (.arr [.str "a".toList, .str "b".toList])
          [("1".toList, registerAs "x".toList), ("0".toList, registerAs "x".toList)]
          Context.empty).1.own = some (.str "a".toList) := by
  decide

/-- C15, amended: a step that passes leaves the context that results from the
assignments `context[opts.name || bodyPath] = v` of its entries, taken in the
order of `Object.keys`, for every entry whose path resolves in the body to `v`
and whose `register` is not `false`; an entry whose `register` is `false` or
whose path is absent assigns nothing.  So the context holds under every
registered name other than `__proto__` the value of the last entry that
registers under it, every key that no entry registers keeps its value, and no
key is removed. -/
theorem registration_effect (env : Env) (baseUrl basePath : Str) (sent : List ReqOption)
    (context : Context) (route : Route) (vars : List (Str × VarOptions))
    (hvars : route.vars = some vars)
    (hpass : (runStep env baseUrl basePath sent context route).outcome = .passed) :
    ∃ req resp, (runStep env baseUrl basePath sent context route).sent = some req
      ∧ env.request sent req = .ok resp
      ∧ (runStep env baseUrl basePath sent context route).context
        = assignAll context (registrations env resp.body vars)
      ∧ (∀ before k v after, registrations env resp.body vars = before ++ (k, v) :: after →
          (∀ r ∈ after, r.1 ≠ k) → k ≠ "__proto__".toList →
          lookup k (runStep env baseUrl basePath sent context route).context.own = some v)
      ∧ (∀ j, (∀ r ∈ registrations env resp.body vars, r.1 ≠ j) →
          lookup j (runStep env baseUrl basePath sent context route).context.own
            = lookup j context.own)
      ∧ (∀ j, hasKey j context.own = true →
          hasKey j (runStep env baseUrl basePath sent context route).context.own = true)
      ∧ (∀ entry rest, (env.has resp.body entry.1 = false ∨ entry.2.register = .bool false) →
          registrations env resp.body (entry :: rest) = registrations env resp.body rest)
      ∧ (∀ entry rest, env.has resp.body entry.1 = true → entry.2.register ≠ .bool false →
          registrations env resp.body (entry :: rest)
            = (finalVarName entry.1 entry.2, env.get resp.body entry.1)
                :: registrations env resp.body rest) := by
  obtain ⟨req, resp, hsent, hreq, hext, hctx⟩ :=
    runStep_passed env baseUrl basePath sent context route vars hvars hpass
  have hall := extractVariables_passed env resp.body vars context hext
  refine ⟨req, resp, hsent, hreq, ?_, ?_, ?_, ?_, ?_, ?_⟩
  · rw [hctx, hall]
  · intro before k v after hregs hafter hk
    rw [hctx, hall, hregs]
    exact assignAll_last context before after k v hafter hk
  · intro j hj
    rw [hctx, hall]
    exact assignAll_lookup_ne _ context j hj
  · intro j hj
    rw [hctx, hall]
    exact assignAll_hasKey _ context j hj
  · exact fun entry rest h => registrations_cons_skip env resp.body entry rest h
  · exact fun entry rest h1 h2 => registrations_cons_register env resp.body entry rest h1 h2

/-- C15, witness of the amended claim on the route that registers `a` and `b`
under the name `x` and the body `{"a": 1, "b": 2}`. -/
theorem registration_effect_witness :
    routeSameName.vars
      = some [("a".toList, registerAs "x".toList), ("b".toList, registerAs "x".toList)]
    ∧ (runStep (demoEnv [.ok (plainResponse 200 bodyPair)]) (stripTrailingSlash demoUrl)
        "api".toList [] demoContext routeSameName).outcome = .passed
    ∧ lookup "x".toList
        (runStep (demoEnv [.ok (plainResponse 200 bodyPair)]) (stripTrailingSlash demoUrl)
          "api".toList [] demoContext routeSameName).context.own = some (.num 2)
    ∧ lookup "id".toList
        (runStep (demoEnv [.ok (plainResponse 200 bodyPair)]) (stripTrailingSlash demoUrl)
          "api".toList [] demoContext routeSameName).context.own = some (.num 7)
    ∧ ∃ req resp,
      (runStep (demoEnv [.ok (plainResponse 200 bodyPair)]) (stripTrailingSlash demoUrl)
        "api".toList [] demoContext routeSameName).sent = some req
      ∧ (demoEnv [.ok (plainResponse 200 bodyPair)]).request [] req = .ok resp
      ∧ (runStep (demoEnv [.ok (plainResponse 200 bodyPair)]) (stripTrailingSlash demoUrl)
          "api".toList [] demoContext routeSameName).context
        = assignAll demoContext
            (registrations (demoEnv [.ok (plainResponse 200 bodyPair)]) resp.body
              [("a".toList, registerAs "x".toList), ("b".toList, registerAs "x".toList)])
      ∧ (∀ before k v after,
          registrations (demoEnv [.ok (plainResponse 200 bodyPair)]) resp.body
              [("a".toList, registerAs "x".toList), ("b".toList, registerAs "x".toList)]
            = before ++ (k, v) :: after →
          (∀ r ∈ after, r.1 ≠ k) → k ≠ "__proto__".toList →
          lookup k
            (runStep (demoEnv [.ok (plainResponse 200 bodyPair)]) (stripTrailingSlash demoUrl)
              "api".toList [] demoContext routeSameName).context.own = some v)
      ∧ (∀ j,
          (∀ r ∈ registrations (demoEnv [.ok (plainResponse 200 bodyPair)]) resp.body
              [("a".toList, registerAs "x".toList), ("b".toList, registerAs "x".toList)],
            r.1 ≠ j) →
          lookup j
            (runStep (demoEnv [.ok (plainResponse 200 bodyPair)]) (stripTrailingSlash demoUrl)
              "api".toList [] demoContext routeSameName).context.own
            = lookup j demoContext.own)
      ∧ (∀ j, hasKey j demoContext.own = true →
          hasKey j
            (runStep (demoEnv [.ok (plainResponse 200 bodyPair)]) (stripTrailingSlash demoUrl)
              "api".toList [] demoContext routeSameName).context.own = true)
      ∧ (∀ entry rest,
          ((demoEnv [.ok (plainResponse 200 bodyPair)]).has resp.body entry.1 = false
            ∨ entry.2.register = .bool false) →
          registrations (demoEnv [.ok (plainResponse 200 bodyPair)]) resp.body (entry :: rest)
            = registrations (demoEnv [.ok (plainResponse 200 bodyPair)]) resp.body rest)
      ∧ (∀ entry rest,
          (demoEnv [.ok (plainResponse 200 bodyPair)]).has resp.body entry.1 = true →
          entry.2.register ≠ .bool false →
          registrations (demoEnv [.ok (plainResponse 200 bodyPair)]) resp.body (entry :: rest)
            = (finalVarName entry.1 entry.2,
                (demoEnv [.ok (plainResponse 200 bodyPair)]).get resp.body entry.1)
                :: registrations (demoEnv [.ok (plainResponse 200 bodyPair)]) resp.body rest) :=
  ⟨rfl, by decide, by decide, by decide,
    registration_effect (demoEnv [.ok (plainResponse 200 bodyPair)]) (stripTrailingSlash demoUrl)
      "api".toList [] demoContext routeSameName
      [("a".toList, registerAs "x".toList), ("b".toList, registerAs "x".toList)] rfl
      (by decide)⟩

/-! ## C16: what a step changes in the route -/

theorem entryFrame_refl (a : JsVal) : entryFrame a a := Or.inl rfl

theorem propsFrame_refl (ps : List (Str × JsVal)) : propsFrame ps ps := by
  induction ps with
  | nil => trivial
  | cons p ps ih => exact ⟨rfl, entryFrame_refl _, ih⟩

theorem itemsFrame_refl (xs : List JsVal) : itemsFrame xs xs := by
  induction xs with
  | nil => trivial
  | cons x xs ih => exact ⟨entryFrame_refl _, ih⟩

theorem headersFrame_refl (h : JsVal) : headersFrame h h := by
  cases h with
  | obj ps => exact propsFrame_refl ps
  | arr xs => exact itemsFrame_refl xs
  | _ => rfl

theorem hydrateProps_frame (context : Context) (ps : List (Str × JsVal)) :
    propsFrame ps (hydrateProps context ps).1 := by
  induction ps with
  | nil => trivial
  | cons p ps ih =>
    obtain ⟨k, v⟩ := p
    cases v with
    | str s =>
      rw [hydrateProps]
      split
      · exact ⟨rfl, Or.inr ⟨s, _, rfl, rfl⟩, propsFrame_refl ps⟩
      · exact ⟨rfl, Or.inr ⟨s, _, rfl, rfl⟩, ih⟩
    | _ => exact ⟨rfl, entryFrame_refl _, ih⟩

theorem hydrateItems_frame (context : Context) (xs : List JsVal) :
    itemsFrame xs (hydrateItems context xs).1 := by
  induction xs with
  | nil => trivial
  | cons v xs ih =>
    cases v with
    | str s =>
      rw [hydrateItems]
      split
      · exact ⟨Or.inr ⟨s, _, rfl, rfl⟩, itemsFrame_refl xs⟩
      · exact ⟨Or.inr ⟨s, _, rfl, rfl⟩, ih⟩
    | _ => exact ⟨entryFrame_refl _, ih⟩

theorem resolveHeaders_frame (context : Context) (h : JsVal) :
    headersFrame h (resolveHeaders context h).1 := by
  cases h with
  | obj ps => exact hydrateProps_frame context ps
  | arr xs => exact hydrateItems_frame context xs
  | _ => rfl

theorem expectFrame_refl (e : Option Expect) : expectFrame e e := by
  cases e with
  | none => trivial
  | some e => exact ⟨rfl, rfl, Or.inl rfl, Or.inl rfl⟩

theorem expectFrame_default (e : Option Expect) : expectFrame e (e.map withDefaultStatus) := by
  cases e with
  | none => trivial
  | some e => exact ⟨rfl, rfl, Or.inr rfl, Or.inl rfl⟩

theorem expectFrame_after (e : Option Expect) (resp : Response) :
    expectFrame e (e.map fun x => expectAfter (withDefaultStatus x) resp) := by
  cases e with
  | none => trivial
  | some e =>
    show expectFrame (some e) (some (expectAfter (withDefaultStatus e) resp))
    unfold expectAfter
    split
    · exact ⟨rfl, rfl, Or.inr rfl, Or.inr rfl⟩
    · exact ⟨rfl, rfl, Or.inr rfl, Or.inl rfl⟩

/-- C16, counterexample: the step of a route with the url `users/${id}` and
the expected body type `Object`, in a context with `id` = 7, passes and leaves
the route with the url `users/7` and with the `expect` of status code 200 and
body type `object`: the url and `expect` are not what they were. -/
theorem step_changes_url_and_expect :
    (runStep (demoEnv [.ok (plainResponse 200 (.obj []))]) (stripTrailingSlash demoUrl)
        "api".toList [] demoContext routeMutated).outcome = .passed
    ∧ (runStep (demoEnv [.ok (plainResponse 200 (.obj []))]) (stripTrailingSlash demoUrl)
        "api".toList [] demoContext routeMutated).route.url = "users/7".toList
    ∧ (runStep (demoEnv [.ok (plainResponse 200 (.obj []))]) (stripTrailingSlash demoUrl)
        "api".toList [] demoContext routeMutated).route.url ≠ routeMutated.url
    ∧ (runStep (demoEnv [.ok (plainResponse 200 (.obj []))]) (stripTrailingSlash demoUrl)
        "api".toList [] demoContext routeMutated).route.expect
      = some ⟨some 200, some "object".toList, none, none⟩
    ∧ routeMutated.expect = some ⟨none, some "Object".toList, none, none⟩ := by
  decide

/-- C16, amended: a step changes in the route object at most the url, which
becomes its resolved value, the text of the string entries of `headers`, and,
in an `expect` that the route has, `statusCode`, which takes the default 200
when absent, and `bodyType`, which is lower-cased; every other field is after
the step what it was before, for every route and context. -/
theorem route_frame (env : Env) (baseUrl basePath : Str) (sent : List ReqOption)
    (context : Context) (route : Route) :
    (runStep env baseUrl basePath sent context route).route.title = route.title
    ∧ (runStep env baseUrl basePath sent context route).route.skip = route.skip
    ∧ (runStep env baseUrl basePath sent context route).route.debug = route.debug
    ∧ (runStep env baseUrl basePath sent context route).route.method = route.method
    ∧ (runStep env baseUrl basePath sent context route).route.model = route.model
    ∧ (runStep env baseUrl basePath sent context route).route.qs = route.qs
    ∧ (runStep env baseUrl basePath sent context route).route.body = route.body
    ∧ (runStep env baseUrl basePath sent context route).route.formData = route.formData
    ∧ (runStep env baseUrl basePath sent context route).route.file = route.file
    ∧ (runStep env baseUrl basePath sent context route).route.vars = route.vars
    ∧ ((runStep env baseUrl basePath sent context route).route.url = route.url
      ∨ resolveUrl context route.url
        = .ok (runStep env baseUrl basePath sent context route).route.url)
    ∧ headersFrame route.headers (runStep env baseUrl basePath sent context route).route.headers
    ∧ expectFrame route.expect (runStep env baseUrl basePath sent context route).route.expect := by
  apply runStep_elim env baseUrl basePath sent context route
    (fun r => r.route.title = route.title ∧ r.route.skip = route.skip
      ∧ r.route.debug = route.debug ∧ r.route.method = route.method
      ∧ r.route.model = route.model ∧ r.route.qs = route.qs ∧ r.route.body = route.body
      ∧ r.route.formData = route.formData ∧ r.route.file = route.file
      ∧ r.route.vars = route.vars
      ∧ (r.route.url = route.url ∨ resolveUrl context route.url = .ok r.route.url)
      ∧ headersFrame route.headers r.route.headers
      ∧ expectFrame route.expect r.route.expect)
  · intro _
    exact ⟨rfl, rfl, rfl, rfl, rfl, rfl, rfl, rfl, rfl, rfl, Or.inl rfl, headersFrame_refl _,
      expectFrame_refl _⟩
  · intro e _ _
    exact ⟨rfl, rfl, rfl, rfl, rfl, rfl, rfl, rfl, rfl, rfl, Or.inl rfl, headersFrame_refl _,
      expectFrame_refl _⟩
  · intro url e _ hurl _
    exact ⟨rfl, rfl, rfl, rfl, rfl, rfl, rfl, rfl, rfl, rfl, Or.inr hurl,
      resolveHeaders_frame context _, expectFrame_refl _⟩
  · intro url e _ hurl _ _
    exact ⟨rfl, rfl, rfl, rfl, rfl, rfl, rfl, rfl, rfl, rfl, Or.inr hurl,
      resolveHeaders_frame context _, expectFrame_default _⟩
  · intro url req e _ hurl _ _ _
    exact ⟨rfl, rfl, rfl, rfl, rfl, rfl, rfl, rfl, rfl, rfl, Or.inr hurl,
      resolveHeaders_frame context _, expectFrame_default _⟩
  · intro url req resp _ hurl _ _ _
    have key : ∀ (o : Outcome) (c : Context),
        (⟨o, routeAfter context route url resp, c, some req⟩ : StepResult).route.title
          = route.title
        ∧ (⟨o, routeAfter context route url resp, c, some req⟩ : StepResult).route.skip
          = route.skip
        ∧ (⟨o, routeAfter context route url resp, c, some req⟩ : StepResult).route.debug
          = route.debug
        ∧ (⟨o, routeAfter context route url resp, c, some req⟩ : StepResult).route.method
          = route.method
        ∧ (⟨o, routeAfter context route url resp, c, some req⟩ : StepResult).route.model
          = route.model
        ∧ (⟨o, routeAfter context route url resp, c, some req⟩ : StepResult).route.qs = route.qs
        ∧ (⟨o, routeAfter context route url resp, c, some req⟩ : StepResult).route.body
          = route.body
        ∧ (⟨o, routeAfter context route url resp, c, some req⟩ : StepResult).route.formData
          = route.formData
        ∧ (⟨o, routeAfter context route url resp, c, some req⟩ : StepResult).route.file
          = route.file
        ∧ (⟨o, routeAfter context route url resp, c, some req⟩ : StepResult).route.vars
          = route.vars
        ∧ ((⟨o, routeAfter context route url resp, c, some req⟩ : StepResult).route.url
            = route.url
          ∨ resolveUrl context route.url
            = .ok (⟨o, routeAfter context route url resp, c, some req⟩ : StepResult).route.url)
        ∧ headersFrame route.headers
            (⟨o, routeAfter context route url resp, c, some req⟩ : StepResult).route.headers
        ∧ expectFrame route.expect
            (⟨o, routeAfter context route url resp, c, some req⟩ : StepResult).route.expect :=
      fun _ _ => ⟨rfl, rfl, rfl, rfl, rfl, rfl, rfl, rfl, rfl, rfl, Or.inr hurl,
        resolveHeaders_frame context _, expectFrame_after _ resp⟩
    split
    · exact key _ _
    · split
      · exact key _ _
      · split
        · exact key _ _
        · exact key _ _

/-! ## C17 and C18: the request descriptor -/

theorem stepAfterResponse_sent (env : Env) (context : Context) (route : Route) (url : Str)
    (req : ReqOption) (resp : Response) :
    (stepAfterResponse env context route url req resp).sent = some req := by
  unfold stepAfterResponse
  split
  · rfl
  · split
    · rfl
    · split <;> rfl

/-- The descriptor of a step that sent one is the descriptor built from the
route after template resolution, with the file attached. -/
theorem runStep_sent (env : Env) (baseUrl basePath : Str) (sent : List ReqOption)
    (context : Context) (route : Route) (req : ReqOption)
    (h : (runStep env baseUrl basePath sent context route).sent = some req) :
    ∃ url, resolveUrl context route.url = .ok url
      ∧ attachFile env route.file (buildReqOption baseUrl basePath (hydrated context route url))
        = .ok req := by
  revert h
  apply runStep_elim env baseUrl basePath sent context route
    (fun r => r.sent = some req → ∃ url, resolveUrl context route.url = .ok url
      ∧ attachFile env route.file (buildReqOption baseUrl basePath (hydrated context route url))
        = .ok req)
  · intro _ h; cases h
  · intro e _ _ h; cases h
  · intro url e _ _ _ h; cases h
  · intro url e _ _ _ _ h; cases h
  · intro url req2 e _ hurl _ hfile _ h
    cases h
    exact ⟨url, hurl, hfile⟩
  · intro url req2 resp _ hurl _ hfile _ h
    have hs := stepAfterResponse_sent env context route url req2 resp
    unfold stepAfterResponse at hs
    rw [hs] at h
    cases h
    exact ⟨url, hurl, hfile⟩

theorem attachFile_fields (env : Env) (file : Option FileSpec) (r req : ReqOption)
    (h : attachFile env file r = .ok req) :
    req.url = r.url ∧ req.method = r.method ∧ req.body = r.body ∧ req.qs = r.qs
      ∧ req.headers = r.headers := by
  unfold attachFile at h
  split at h
  · cases h; exact ⟨rfl, rfl, rfl, rfl, rfl⟩
  · split at h
    · cases h; exact ⟨rfl, rfl, rfl, rfl, rfl⟩
    · split at h
      · cases h
      · cases h; exact ⟨rfl, rfl, rfl, rfl, rfl⟩

/-- C17, counterexample: a route with the body 0, the query `false` and the
empty string as form data sends a descriptor in which all three are
`undefined`. -/
theorem falsy_payload_dropped :
    (runStep okEnv (stripTrailingSlash demoUrl) "api".toList [] Context.empty routeFalsy).sent
      = some ⟨"POST".toList, "http://localhost:3000/api/counter".toList, .undefined, .undefined,
          .undefined, .undefined⟩
    ∧ routeFalsy.body = .num 0
    ∧ routeFalsy.qs = .bool false
    ∧ routeFalsy.formData = .str [] := by
  decide

/-- C17, amended: for a route without a file attachment, the `body`, `qs`,
`headers` and `formData` of the descriptor are the `body`, `qs`, resolved
`headers` and `formData` of the route passed through `|| void 0`: a truthy
value is passed as it is, and a falsy one (`undefined`, `null`, `false`, 0 or
the empty string) is passed as `undefined`. -/
theorem payload_pass_through (env : Env) (baseUrl basePath : Str) (sent : List ReqOption)
    (context : Context) (route : Route) (req : ReqOption) (hfile : route.file = none)
    (hsent : (runStep env baseUrl basePath sent context route).sent = some req) :
    req.body = orUndefined route.body
    ∧ req.qs = orUndefined route.qs
    ∧ req.formData = orUndefined route.formData
    ∧ req.headers = orUndefined (resolveHeaders context route.headers).1
    ∧ (∀ v, truthy v = true → orUndefined v = v)
    ∧ (∀ v, truthy v = false → orUndefined v = .undefined)
    ∧ (∀ v, truthy v = false ↔
        v = .undefined ∨ v = .null ∨ v = .bool false ∨ v = .num 0 ∨ v = .str []) := by
  obtain ⟨url, _, hatt⟩ := runStep_sent env baseUrl basePath sent context route req hsent
  rw [hfile] at hatt
  simp only [attachFile] at hatt
  cases hatt
  refine ⟨rfl, rfl, rfl, rfl, ?_, ?_, ?_⟩
  · intro v hv; simp [orUndefined, hv]
  · intro v hv; simp [orUndefined, hv]
  · intro v
    cases v with
    | bool b => cases b <;> simp [truthy]
    | num n => simp [truthy]
    | str s => cases s <;> simp [truthy]
    | _ => simp [truthy]

/-- C17, witness of the amended claim: the route with the body
`{"name": "Ann"}` and the header `x-user: u${id}` sends that body and the
resolved header, and `undefined` for the query and the form data it does not
give. -/
theorem payload_pass_through_witness :
    routePayload.file = none
    ∧ (runStep okEnv (stripTrailingSlash demoUrl) "api".toList [] demoContext routePayload).sent
      = some reqPayload
    ∧ (reqPayload.body = orUndefined routePayload.body
      ∧ reqPayload.qs = orUndefined routePayload.qs
      ∧ reqPayload.formData = orUndefined routePayload.formData
      ∧ reqPayload.headers = orUndefined (resolveHeaders demoContext routePayload.headers).1
      ∧ (∀ v, truthy v = true → orUndefined v = v)
      ∧ (∀ v, truthy v = false → orUndefined v = .undefined)
      ∧ (∀ v, truthy v = false ↔
          v = .undefined ∨ v = .null ∨ v = .bool false ∨ v = .num 0 ∨ v = .str [])) :=
  ⟨rfl, by decide,
    payload_pass_through okEnv (stripTrailingSlash demoUrl) "api".toList [] demoContext
      routePayload reqPayload rfl (by decide)⟩

theorem stripTrailingSlash_append (u : Str) : stripTrailingSlash (u ++ ['/']) = u := by
  simp [stripTrailingSlash]

/-- C18, counterexample: a route whose method is the empty string sends a
descriptor with the method `GET`, not with the method of the route. -/
theorem empty_method_becomes_get :
    ((runStep okEnv (stripTrailingSlash demoUrl) "api".toList [] Context.empty
        { routeA with method := some [] }).sent.map fun r => r.method) = some "GET".toList
    ∧ ({ routeA with method := some [] } : Route).method = some [] := by
  decide

/-- C18, amended: the descriptor of a step has the url made of the base url, a
slash, the base path, a slash and the model when the route has one, a slash
and the resolved url of the route, and the method of the route, or `GET` when
the route gives no method or the empty string; the run takes as base url the
url of the host without one trailing slash. -/
theorem request_url_and_method (env : Env) (baseUrl basePath : Str) (sent : List ReqOption)
    (context : Context) (route : Route) (req : ReqOption)
    (hsent : (runStep env baseUrl basePath sent context route).sent = some req) :
    (∃ resolvedUrl, resolveUrl context route.url = .ok resolvedUrl
      ∧ req.url = baseUrl ++ "/".toList ++ basePath ++
          (match route.model with
           | some model => "/".toList ++ model
           | none => []) ++ "/".toList ++ resolvedUrl)
    ∧ req.method = methodOf route
    ∧ (∀ m, route.method = some m → m ≠ [] → req.method = m)
    ∧ ((route.method = none ∨ route.method = some []) → req.method = "GET".toList)
    ∧ (∀ (url : Str) (config : List Route) (path : Option Str),
        loopbackModelTester env url config path
          = eachSeries env (stripTrailingSlash url) (path.getD "api".toList) config
              Context.empty [])
    ∧ (∀ u : Str, stripTrailingSlash (u ++ ['/']) = u)
    ∧ (∀ u : Str, u.getLast? ≠ some '/' → stripTrailingSlash u = u) := by
  obtain ⟨url, hurl, hatt⟩ := runStep_sent env baseUrl basePath sent context route req hsent
  obtain ⟨h1, h2, _, _, _⟩ := attachFile_fields env route.file _ req hatt
  have hm : req.method = methodOf route := by
    rw [h2]
    unfold buildReqOption methodOf hydrated
    cases hmeth : route.method with
    | none => rfl
    | some m => cases m <;> simp [List.isEmpty]
  refine ⟨⟨url, hurl, ?_⟩, hm, ?_, ?_, fun _ _ _ => rfl, stripTrailingSlash_append, ?_⟩
  · rw [h1]; rfl
  · intro m hmeth hne
    rw [hm, methodOf, hmeth]
    simp [hne]
  · rintro (h | h)
    · rw [hm, methodOf, h]
    · rw [hm, methodOf, h]; simp
  · intro u hu
    simp [stripTrailingSlash, hu]

/-- C18, witness of the amended claim: the route with the method `PUT`, the
model `v1` and the url `users/${id}` sends the descriptor with the url
`http://localhost:3000/api/v1/users/7` in the context of the examples. -/
theorem request_url_and_method_witness :
    (runStep okEnv (stripTrailingSlash demoUrl) "api".toList [] demoContext routePayload).sent
      = some reqPayload
    ∧ stripTrailingSlash demoUrl = "http://localhost:3000".toList
    ∧ reqPayload.method = "PUT".toList
    ∧ (∃ resolvedUrl, resolveUrl demoContext routePayload.url = .ok resolvedUrl
      ∧ reqPayload.url = stripTrailingSlash demoUrl ++ "/".toList ++ "api".toList ++
          (match routePayload.model with
           | some model => "/".toList ++ model
           | none => []) ++ "/".toList ++ resolvedUrl) :=
  ⟨by decide, by decide, by decide,
    (request_url_and_method okEnv (stripTrailingSlash demoUrl) "api".toList [] demoContext
      routePayload reqPayload (by decide)).1⟩

/-! ## C19: properties without an expected body type -/

theorem validate_without_bodyType (env : Env) (expect : Expect) (resp : Response)
    (hbt : expect.bodyType = none) :
    validate env expect resp
      = match checkStatusCode env (expect.statusCode.getD 200) resp.statusCode with
        | .error e => .error e
        | .ok () => checkHeaders env expect resp.headers := by
  unfold validate
  have hb : checkBodyType env expect resp.body = .ok () := by simp [checkBodyType, hbt]
  rw [hb]

theorem validate_properties_irrelevant (env : Env) (expect : Expect) (resp : Response)
    (properties : Option (List (Str × Str))) (hbt : expect.bodyType = none) :
    validate env (withDefaultStatus { expect with properties := properties }) resp
      = validate env (withDefaultStatus expect) resp := by
  rw [validate_without_bodyType env _ resp (by simp [withDefaultStatus, hbt]),
    validate_without_bodyType env _ resp (by simp [withDefaultStatus, hbt])]
  rfl

/-- C19: for a route whose `expect` has no `bodyType`, the body-type block of
lines 124-146 does nothing, so the validation is the status-code check
followed by the header check, and the outcome of the step, its context and its
descriptor are the same whatever `expect.properties` is: the declared
properties are never consulted. -/
theorem properties_need_bodyType (env : Env) (baseUrl basePath : Str) (sent : List ReqOption)
    (context : Context) (route : Route) (expect : Expect)
    (properties : Option (List (Str × Str)))
    (hexp : route.expect = some expect) (hbt : expect.bodyType = none) :
    (∀ body, checkBodyType env expect body = .ok ())
    ∧ (∀ resp, validate env (withDefaultStatus expect) resp
        = match checkStatusCode env (expect.statusCode.getD 200) resp.statusCode with
          | .error e => .error e
          | .ok () => checkHeaders env expect resp.headers)
    ∧ (runStep env baseUrl basePath sent context
        { route with expect := some { expect with properties := properties } }).outcome
      = (runStep env baseUrl basePath sent context route).outcome
    ∧ (runStep env baseUrl basePath sent context
        { route with expect := some { expect with properties := properties } }).context
      = (runStep env baseUrl basePath sent context route).context
    ∧ (runStep env baseUrl basePath sent context
        { route with expect := some { expect with properties := properties } }).sent
      = (runStep env baseUrl basePath sent context route).sent := by
  refine ⟨fun body => by simp [checkBodyType, hbt], fun resp => ?_, ?_⟩
  · rw [validate_without_bodyType env _ resp (by simp [withDefaultStatus, hbt])]
    rfl
  · by_cases hskipT : route.skip = true
    · rw [runStep_skip _ _ _ _ _ _ hskipT, runStep_skip _ _ _ _ _ _ (by exact hskipT)]
      exact ⟨rfl, rfl, rfl⟩
    · have hskip : route.skip = false := by simpa using hskipT
      cases hurl : resolveUrl context route.url with
      | error e =>
        rw [runStep_url_error _ _ _ _ _ _ e hskip hurl,
          runStep_url_error _ _ _ _ _ _ e (by exact hskip) (by exact hurl)]
        exact ⟨rfl, rfl, rfl⟩
      | ok url =>
        cases hhead : (resolveHeaders context route.headers).2 with
        | some e =>
          rw [runStep_header_error _ _ _ _ _ _ url e hskip hurl hhead,
            runStep_header_error _ _ _ _ _ _ url e (by exact hskip) (by exact hurl)
              (by exact hhead)]
          exact ⟨rfl, rfl, rfl⟩
        | none =>
          cases hfile : attachFile env route.file
              (buildReqOption baseUrl basePath (hydrated context route url)) with
          | error e =>
            rw [runStep_file_error _ _ _ _ _ _ url e hskip hurl hhead hfile,
              runStep_file_error _ _ _ _ _ _ url e (by exact hskip) (by exact hurl)
                (by exact hhead) (by exact hfile)]
            exact ⟨rfl, rfl, rfl⟩
          | ok req =>
            cases hreq : env.request sent req with
            | error e =>
              rw [runStep_request_error _ _ _ _ _ _ url req e hskip hurl hhead hfile hreq,
                runStep_request_error _ _ _ _ _ _ url req e (by exact hskip) (by exact hurl)
                  (by exact hhead) (by exact hfile) hreq]
              exact ⟨rfl, rfl, rfl⟩
            | ok resp =>
              rw [runStep_response _ _ _ _ _ _ url req resp hskip hurl hhead hfile hreq,
                runStep_response _ _ _ _ _ _ url req resp (by exact hskip) (by exact hurl)
                  (by exact hhead) (by exact hfile) hreq]
              have hv := validate_properties_irrelevant env expect resp properties hbt
              simp only [hexp, Option.getD_some]
              rw [hv]
              cases validate env (withDefaultStatus expect) resp with
              | error e => exact ⟨rfl, rfl, rfl⟩
              | ok u =>
                cases u
                cases route.vars with
                | none => exact ⟨rfl, rfl, rfl⟩
                | some vars =>
                  dsimp only
                  cases (extractVariables env resp.body vars context).2 with
                  | none => exact ⟨rfl, rfl, rfl⟩
                  | some e => exact ⟨rfl, rfl, rfl⟩

/-- C19, witness: the route that declares the property `user.id` of type
`string` without a body type passes on the body `{"name": "x"}`, which lacks
the property, as it does without the declaration. -/
theorem properties_need_bodyType_witness :
    routePropertiesOnly.expect
      = some ⟨none, none, some [("user.id".toList, "string".toList)], none⟩
    ∧ (runStep (demoEnv [.ok (plainResponse 200 (.obj [("name".toList, .str "x".toList)]))])
        (stripTrailingSlash demoUrl) "api".toList [] Context.empty routePropertiesOnly).outcome
      = .passed
    ∧ (runStep (demoEnv [.ok (plainResponse 200 (.obj [("name".toList, .str "x".toList)]))])
        (stripTrailingSlash demoUrl) "api".toList [] Context.empty
        { routePropertiesOnly with
          expect := some { (⟨none, none, some [("user.id".toList, "string".toList)], none⟩ :
            Expect) with properties := none } }).outcome
      = (runStep (demoEnv [.ok (plainResponse 200 (.obj [("name".toList, .str "x".toList)]))])
        (stripTrailingSlash demoUrl) "api".toList [] Context.empty routePropertiesOnly).outcome :=
  ⟨rfl, by decide,
    (properties_need_bodyType
      (demoEnv [.ok (plainResponse 200 (.obj [("name".toList, .str "x".toList)]))])
      (stripTrailingSlash demoUrl) "api".toList [] Context.empty routePropertiesOnly
      ⟨none, none, some [("user.id".toList, "string".toList)], none⟩ none rfl rfl).2.2.1⟩

/-! ## C20: the context when a step fails -/

theorem extractVariables_append (env : Env) (body : JsVal) (before rest : List (Str × VarOptions))
    (context : Context) (h : (extractVariables env body before context).2 = none) :
    extractVariables env body (before ++ rest) context
      = extractVariables env body rest (extractVariables env body before context).1 := by
  induction before generalizing context with
  | nil => rfl
  | cons entry before ih =>
    obtain ⟨p, o⟩ := entry
    rw [List.cons_append]
    by_cases hhas : env.has body p = true
    · rw [extractVariables_present env body p o before context hhas] at h ⊢
      rw [extractVariables_present env body p o (before ++ rest) context hhas]
      by_cases hlog : registerVar o = true ∧ jsToString (env.get body p) = none
      · rw [if_pos hlog] at h; cases h
      · rw [if_neg hlog] at h ⊢
        rw [if_neg hlog]
        by_cases hv : o.value = .undefined ∨ strictEq (env.get body p) o.value = true
        · rw [if_pos hv] at h ⊢
          rw [if_pos hv]
          exact ih _ h
        · rw [if_neg hv] at h; cases h
    · have hhas2 : env.has body p = false := by simpa using hhas
      by_cases hreq : o.required = .bool true
      · rw [extractVariables_absent_required env body p o _ context hhas2 hreq] at h
        cases h
      · rw [extractVariables_absent_optional env body p o before context hhas2 hreq] at h ⊢
        rw [extractVariables_absent_optional env body p o (before ++ rest) context hhas2 hreq]
        exact ih _ h

/-- A step that sent a descriptor and got a response ends as the validation
and the extraction on that response decide. -/
theorem runStep_sent_response (env : Env) (baseUrl basePath : Str) (sent : List ReqOption)
    (context : Context) (route : Route) (req : ReqOption) (resp : Response)
    (hsent : (runStep env baseUrl basePath sent context route).sent = some req)
    (hreq : env.request sent req = .ok resp) :
    ∃ url, resolveUrl context route.url = .ok url
      ∧ runStep env baseUrl basePath sent context route
        = stepAfterResponse env context route url req resp := by
  revert hsent
  apply runStep_elim env baseUrl basePath sent context route
    (fun r => r.sent = some req → ∃ url, resolveUrl context route.url = .ok url
      ∧ r = stepAfterResponse env context route url req resp)
  · intro _ h; cases h
  · intro e _ _ h; cases h
  · intro url e _ _ _ h; cases h
  · intro url e _ _ _ _ h; cases h
  · intro url req2 e _ _ _ _ hreq2 h
    cases h
    rw [hreq] at hreq2
    cases hreq2
  · intro url req2 resp2 _ hurl _ _ hreq2 h
    have hs := stepAfterResponse_sent env context route url req2 resp2
    unfold stepAfterResponse at hs
    rw [hs] at h
    cases h
    rw [hreq] at hreq2
    cases hreq2
    exact ⟨url, hurl, rfl⟩

theorem stepAfterResponse_extraction (env : Env) (context : Context) (route : Route) (url : Str)
    (req : ReqOption) (resp : Response) (vars : List (Str × VarOptions))
    (hvalid : validate env (withDefaultStatus (route.expect.getD emptyExpect)) resp = .ok ())
    (hvars : route.vars = some vars) :
    (stepAfterResponse env context route url req resp).context
        = (extractVariables env resp.body vars context).1
    ∧ (stepAfterResponse env context route url req resp).outcome
        = match (extractVariables env resp.body vars context).2 with
          | some e => .failed e
          | none => .passed := by
  unfold stepAfterResponse
  rw [hvalid]
  dsimp only
  rw [hvars]
  dsimp only
  cases (extractVariables env resp.body vars context).2 <;> exact ⟨rfl, rfl⟩

theorem stepAfterResponse_invalid (env : Env) (context : Context) (route : Route) (url : Str)
    (req : ReqOption) (resp : Response) (e : JsErr)
    (hvalid : validate env (withDefaultStatus (route.expect.getD emptyExpect)) resp = .error e) :
    (stepAfterResponse env context route url req resp).outcome = .failed e
    ∧ (stepAfterResponse env context route url req resp).context = context := by
  unfold stepAfterResponse
  rw [hvalid]
  exact ⟨rfl, rfl⟩

/-- An entry whose path resolves to a value other than the defined expected
value: the extraction stops there with an error, after the assignment if the
entry registers. -/
theorem extractVariables_unexpected (env : Env) (body : JsVal) (p : Str) (o : VarOptions)
    (rest : List (Str × VarOptions)) (context : Context) (hhas : env.has body p = true)
    (hval : o.value ≠ .undefined) (hne : strictEq (env.get body p) o.value = false) :
    (extractVariables env body ((p, o) :: rest) context).1
        = (if registerVar o = true then context.set (finalVarName p o) (env.get body p)
            else context)
    ∧ ∃ e, (extractVariables env body ((p, o) :: rest) context).2 = some e
      ∧ (registerVar o = false → e = unexpectedValue env p o.value (env.get body p)) := by
  rw [extractVariables_present env body p o rest context hhas]
  have hv : ¬ (o.value = .undefined ∨ strictEq (env.get body p) o.value = true) := by
    rintro (h | h)
    · exact hval h
    · rw [hne] at h; cases h
  by_cases hlog : registerVar o = true ∧ jsToString (env.get body p) = none
  · rw [if_pos hlog]
    refine ⟨rfl, noPrimitive, rfl, ?_⟩
    intro h
    rw [hlog.1] at h
    cases h
  · rw [if_neg hlog, if_neg hv]
    exact ⟨rfl, _, rfl, fun _ => rfl⟩

theorem extractVariables_hasKey (env : Env) (body : JsVal) (vars : List (Str × VarOptions))
    (context : Context) (k : Str) (h : hasKey k context.own = true) :
    hasKey k (extractVariables env body vars context).1.own = true := by
  induction vars generalizing context with
  | nil => exact h
  | cons entry rest ih =>
    obtain ⟨p, o⟩ := entry
    have hset : hasKey k (if registerVar o = true then
        context.set (finalVarName p o) (env.get body p) else context).own = true := by
      split
      · exact set_hasKey context _ k _ h
      · exact h
    by_cases hhas : env.has body p = true
    · rw [extractVariables_present env body p o rest context hhas]
      split
      · exact hset
      · split
        · exact ih _ hset
        · exact hset
    · have hhas2 : env.has body p = false := by simpa using hhas
      by_cases hreq : o.required = .bool true
      · rw [extractVariables_absent_required env body p o rest context hhas2 hreq]
        exact h
      · rw [extractVariables_absent_optional env body p o rest context hhas2 hreq]
        exact ih _ h

theorem assignAll_mem_hasKey (regs : List (Str × JsVal)) (context : Context)
    (r : Str × JsVal) (hr : r ∈ regs) (hk : r.1 ≠ "__proto__".toList) :
    hasKey r.1 (assignAll context regs).own = true := by
  induction regs generalizing context with
  | nil => cases hr
  | cons q rest ih =>
    show hasKey r.1 (assignAll (context.set q.1 q.2) rest).own = true
    rcases List.mem_cons.mp hr with h | h
    · subst h
      apply assignAll_hasKey
      rw [set_own context r.1 r.2 hk]
      show (lookup r.1 (assign r.1 r.2 context.own)).isSome = true
      rw [lookup_assign]
      rfl
    · exact ih _ h

/-- C20, counterexample: an entry that meets the conditions of the claim is
not always assigned.  With the entries `missing` (required) and `id` (expected
value 6) and the body `{"a": 1, "id": 5}` the step fails on `missing`, and the
context has no `id`; with the expected status code 201 and the answer 200 the
step fails before the extraction, and the context has no `id`; and the entry
`id` registered under the name `__proto__` fails after the assignment
`context["__proto__"] = 5`, which leaves the context as it was. -/
theorem failing_entry_not_assigned :
    lodashHas bodyItem "id".toList = true
    ∧ lodashGet bodyItem "id".toList = .num 5
    ∧ strictEq (.num 5) expectSix.value = false
    ∧ (runStep (demoEnv [.ok (plainResponse 200 bodyItem)]) (stripTrailingSlash demoUrl)
        "api".toList [] Context.empty routeLater).outcome
        = .failed (missingVariable (demoEnv []) "missing".toList)
    ∧ lookup "id".toList
        (runStep (demoEnv [.ok (plainResponse 200 bodyItem)]) (stripTrailingSlash demoUrl)
          "api".toList [] Context.empty routeLater).context.own = none
    ∧ (∃ e, (runStep (demoEnv [.ok (plainResponse 200 bodyItem)]) (stripTrailingSlash demoUrl)
        "api".toList [] Context.empty routeCreated).outcome = .failed e)
    ∧ lookup "id".toList
        (runStep (demoEnv [.ok (plainResponse 200 bodyItem)]) (stripTrailingSlash demoUrl)
          "api".toList [] Context.empty routeCreated).context.own = none
    ∧ (runStep (demoEnv [.ok (plainResponse 200 bodyItem)]) (stripTrailingSlash demoUrl)
        "api".toList [] Context.empty routeProtoName).outcome
        = .failed (unexpectedValue (demoEnv []) "id".toList (.num 6) (.num 5))
    ∧ (runStep (demoEnv [.ok (plainResponse 200 bodyItem)]) (stripTrailingSlash demoUrl)
        "api".toList [] Context.empty routeProtoName).context = Context.empty := by
  refine ⟨by decide, by decide, by decide, by decide, by decide, ⟨_, rfl⟩, by decide,
    by decide, by decide⟩

/-- C20, amended: variable extraction is not atomic on failure.  Take a step
that sent its request and got a response.  When the checks of the response
pass and the extraction reaches an entry of `variables` (no earlier entry of
the step fails): if the path of the entry resolves to `v`, its `register` is
not `false` and its defined expected value differs from `v`, the step fails
after the assignment `context[opts.name || bodyPath] = v`, so for a name other
than `__proto__` the context holds `v` under that name; if its `register` is
`false` the step fails with the error of the unexpected value and assigns
nothing for that entry; if its path is absent and it is required the step
fails with the error of the missing variable.  In each case the assignments
of the earlier entries are kept: the context is the one they produce, and
every name other than `__proto__` that an earlier entry registered is a key
of it.  Conversely, when the status-code, body-type, properties or header
check fails, the step fails with that error and the context is exactly what
it was before the step. -/
theorem extraction_not_atomic (env : Env) (baseUrl basePath : Str) (sent : List ReqOption)
    (context : Context) (route : Route) (req : ReqOption) (resp : Response)
    (hsent : (runStep env baseUrl basePath sent context route).sent = some req)
    (hreq : env.request sent req = .ok resp) :
    (∀ before p o after,
      validate env (withDefaultStatus (route.expect.getD emptyExpect)) resp = .ok () →
      route.vars = some (before ++ (p, o) :: after) →
      (extractVariables env resp.body before context).2 = none →
      (env.has resp.body p = true → o.register ≠ .bool false → o.value ≠ .undefined →
        strictEq (env.get resp.body p) o.value = false →
        (∃ e, (runStep env baseUrl basePath sent context route).outcome = .failed e)
        ∧ (runStep env baseUrl basePath sent context route).context
          = (assignAll context (registrations env resp.body before)).set
              (finalVarName p o) (env.get resp.body p)
        ∧ (finalVarName p o ≠ "__proto__".toList →
            lookup (finalVarName p o) (runStep env baseUrl basePath sent context route).context.own
              = some (env.get resp.body p)))
      ∧ (env.has resp.body p = true → o.register = .bool false → o.value ≠ .undefined →
        strictEq (env.get resp.body p) o.value = false →
        (runStep env baseUrl basePath sent context route).outcome
          = .failed (unexpectedValue env p o.value (env.get resp.body p))
        ∧ (runStep env baseUrl basePath sent context route).context
          = assignAll context (registrations env resp.body before))
      ∧ (env.has resp.body p = false → o.required = .bool true →
        (runStep env baseUrl basePath sent context route).outcome
          = .failed (missingVariable env p)
        ∧ (runStep env baseUrl basePath sent context route).context
          = assignAll context (registrations env resp.body before))
      ∧ (∀ r ∈ registrations env resp.body before, r.1 ≠ "__proto__".toList →
        hasKey r.1 (runStep env baseUrl basePath sent context route).context.own = true))
    ∧ (∀ e, validate env (withDefaultStatus (route.expect.getD emptyExpect)) resp = .error e →
      (runStep env baseUrl basePath sent context route).outcome = .failed e
      ∧ (runStep env baseUrl basePath sent context route).context = context) := by
  obtain ⟨url, _, hrun⟩ :=
    runStep_sent_response env baseUrl basePath sent context route req resp hsent hreq
  rw [hrun]
  constructor
  · intro before p o after hvalid hvars hbefore
    obtain ⟨hctx, hout⟩ := stepAfterResponse_extraction env context route url req resp
      (before ++ (p, o) :: after) hvalid hvars
    have happ := extractVariables_append env resp.body before ((p, o) :: after) context hbefore
    rw [extractVariables_passed env resp.body before context hbefore] at happ
    rw [hctx, hout, happ]
    refine ⟨?_, ?_, ?_, ?_⟩
    · intro hhas hreg hval hne
      obtain ⟨h1, e, h2, _⟩ := extractVariables_unexpected env resp.body p o after
        (assignAll context (registrations env resp.body before)) hhas hval hne
      have hr : registerVar o = true := (registerVar_eq_true_iff o).mpr hreg
      rw [if_pos hr] at h1
      rw [h1, h2]
      refine ⟨⟨e, rfl⟩, rfl, ?_⟩
      intro hk
      rw [set_own _ _ _ hk]
      exact lookup_assign _ _ _
    · intro hhas hreg hval hne
      obtain ⟨h1, e, h2, h3⟩ := extractVariables_unexpected env resp.body p o after
        (assignAll context (registrations env resp.body before)) hhas hval hne
      have hr : registerVar o = false := by
        unfold registerVar
        rw [hreg]
      rw [if_neg (by rw [hr]; simp)] at h1
      rw [h1, h2, h3 hr]
      exact ⟨rfl, rfl⟩
    · intro hhas hreq
      rw [extractVariables_absent_required env resp.body p o after _ hhas hreq]
      exact ⟨rfl, rfl⟩
    · intro r hr hk
      apply extractVariables_hasKey
      exact assignAll_mem_hasKey _ context r hr hk
  · intro e hvalid
    exact stepAfterResponse_invalid env context route url req resp e hvalid

/-- C20, witness of the amended claim: the entries `a` and `id` (expected
value 6) on the body `{"a": 1, "id": 5}`; the step fails, and the context then
holds 5 under `id` and 1 under `a`. -/
theorem extraction_not_atomic_witness :
    (runStep (demoEnv [.ok (plainResponse 200 bodyItem)]) (stripTrailingSlash demoUrl)
        "api".toList [] demoContext routeUnexpected).sent = some reqUnexpected
    ∧ (demoEnv [.ok (plainResponse 200 bodyItem)]).request [] reqUnexpected
        = .ok (plainResponse 200 bodyItem)
    ∧ (runStep (demoEnv [.ok (plainResponse 200 bodyItem)]) (stripTrailingSlash demoUrl)
        "api".toList [] demoContext routeUnexpected).outcome
        = .failed (unexpectedValue (demoEnv []) "id".toList (.num 6) (.num 5))
    ∧ lookup "a".toList
        (runStep (demoEnv [.ok (plainResponse 200 bodyItem)]) (stripTrailingSlash demoUrl)
          "api".toList [] demoContext routeUnexpected).context.own = some (.num 1)
    ∧ ((∃ e, (runStep (demoEnv [.ok (plainResponse 200 bodyItem)]) (stripTrailingSlash demoUrl)
          "api".toList [] demoContext routeUnexpected).outcome = .failed e)
      ∧ (runStep (demoEnv [.ok (plainResponse 200 bodyItem)]) (stripTrailingSlash demoUrl)
          "api".toList [] demoContext routeUnexpected).context
        = (assignAll demoContext
            (registrations (demoEnv [.ok (plainResponse 200 bodyItem)])
              (plainResponse 200 bodyItem).body [("a".toList, noOptions)])).set
            (finalVarName "id".toList expectSix)
            ((demoEnv [.ok (plainResponse 200 bodyItem)]).get (plainResponse 200 bodyItem).body
              "id".toList)
      ∧ (finalVarName "id".toList expectSix ≠ "__proto__".toList →
          lookup (finalVarName "id".toList expectSix)
            (runStep (demoEnv [.ok (plainResponse 200 bodyItem)]) (stripTrailingSlash demoUrl)
              "api".toList [] demoContext routeUnexpected).context.own
            = some ((demoEnv [.ok (plainResponse 200 bodyItem)]).get
                (plainResponse 200 bodyItem).body "id".toList))) :=
  ⟨by decide, by decide, by decide, by decide,
    ((extraction_not_atomic (demoEnv [.ok (plainResponse 200 bodyItem)])
      (stripTrailingSlash demoUrl) "api".toList [] demoContext routeUnexpected reqUnexpected
      (plainResponse 200 bodyItem) (by decide) (by decide)).1
        [("a".toList, noOptions)] "id".toList expectSix [] (by decide) (by decide)
        (by decide)).1 (by decide) (by decide) (by decide) (by decide)⟩

end LoopbackModelTester
